import Mathlib

/-!
Verification of the HiggsFieldAI scraper suite.

This file shallowly embeds the pure/decidable cores of the five scraper
scripts (`simple_scraper.py`, `range_scraper.py`, `image_scraper.py`,
`auto_scraper.py`, `metadata_updater.py`, `low_video_count_analysis.py`)
and proves or refutes the behavioural claims of the design specification.

Conventions of the embedding:
* Python dictionaries holding JSON data become association lists
  `List (String × JVal)`; Python `dict` assignment/lookup semantics are
  modelled explicitly (`setKey`, `lookup`, insertion order preserved).
* Python truthiness of optional strings/values is modelled by `strTruthy`
  and `jTruthy`.
* Browser/driver state is opaque: each primitive probe of the page is a
  field of a "page state" record holding the probe's outcome, where
  `none` models the probe raising a WebDriver exception.  `try/except`
  control flow is translated into explicit `Except`/`Option` matching.
* File-system effects are modelled by returning an `Option` of the data
  that would be written; `none` models "returned before writing".
-/

namespace HF

/-- JSON-like scalar values stored in record dictionaries. -/
inductive JVal where
  | null : JVal
  | str : String → JVal
  | num : Int → JVal
  deriving DecidableEq, Repr

/-- A scraped record: a Python dict, i.e. an insertion-ordered
association list from field names to values. -/
abbrev Record := List (String × JVal)

/-- `d.get(k, default)` on a Python dict (first occurrence wins). -/
def getD (r : Record) (k : String) (dflt : JVal) : JVal :=
  match r.find? (fun p => p.1 = k) with
  | some p => p.2
  | none => dflt

/-- The keys of a record, in insertion order. -/
def keysOf (r : Record) : List String := r.map Prod.fst

/-- Python truthiness of a `JVal` (`None`, `""` and `0` are falsy). -/
def jTruthy : JVal → Bool
  | JVal.null => false
  | JVal.str s => s ≠ ""
  | JVal.num n => n ≠ 0

/-- Python truthiness of an optional string (`None` and `""` are falsy). -/
def strTruthy : Option String → Bool
  | none => false
  | some s => s ≠ ""

/-- `a or b` on Python optional strings: yields `b` exactly when `a` is falsy. -/
def pyOr (a b : Option String) : Option String :=
  if strTruthy a then a else b

end HF

namespace HF.AS

/-! ### `auto_scraper.py` — reconciliation classification

`check_videos_json` (src/auto_scraper.py lines 35-57) classifies one
subsection's persisted record file; `find_missing_subcategories`
(lines 89-104) keeps a subsection on the worklist iff its status is in
`['missing', 'empty', 'single_item', 'invalid']`. -/

/-- Status strings returned by `check_videos_json`. -/
inductive Status where
  | missing | invalid | empty | single_item | populated
  deriving DecidableEq, Repr

/-- The state of one subsection's `videos.json` file as the reconciler
can observe it: absent, unparsable JSON, parsable but not a list, or a
list of some length. -/
inductive VideosFile where
  | absent : VideosFile
  | unparsable : VideosFile
  | notAList : VideosFile
  | listOf : Nat → VideosFile
  deriving DecidableEq, Repr

/-- `check_videos_json` (auto_scraper.py lines 35-57): `missing` if the
file does not exist, `invalid` if it cannot be parsed or is not a list,
`empty` for 0 records, `single_item` for `count <= 2`, else `populated`
with the count. -/
def check_videos_json : VideosFile → Status × Nat
  | VideosFile.absent => (Status.missing, 0)
  | VideosFile.unparsable => (Status.invalid, 0)
  | VideosFile.notAList => (Status.invalid, 0)
  | VideosFile.listOf count =>
    if count = 0 then (Status.empty, 0)
    else if count ≤ 2 then (Status.single_item, count)
    else (Status.populated, count)

/-- Worklist membership test of `find_missing_subcategories`
(auto_scraper.py line 93): `status in ['missing', 'empty',
'single_item', 'invalid']`. -/
def needsScrape (s : Status) : Bool :=
  s ∈ [Status.missing, Status.empty, Status.single_item, Status.invalid]

end HF.AS

namespace HF

/-! ### `save_videos_data` — the record store write for video records

`simple_scraper.py` lines 700-758 and `range_scraper.py` lines 998-1056
contain the same function.  The pure content is: an early return when
the record list is empty (before any directory creation), the folder
path computation, the `video_url` deduplication pass, the provenance
stripping, and the JSON/CSV payloads. -/

/-- The deduplication pass of `save_videos_data` (simple_scraper.py
lines 718-728 / range_scraper.py lines 1016-1026), with the accumulated
`seen_urls` set made explicit.  A record whose `video.get('video_url',
'')` is truthy is kept iff its URL has not been seen; a record with a
falsy URL is always kept. -/
def urlOfVideo (video : Record) : JVal := getD video "video_url" (JVal.str "")

def dedupVideos : List Record → List JVal → List Record
  | [], _ => []
  | video :: rest, seen =>
    if jTruthy (urlOfVideo video) ∧ urlOfVideo video ∉ seen then
      video :: dedupVideos rest (urlOfVideo video :: seen)
    else if ¬ jTruthy (urlOfVideo video) then
      video :: dedupVideos rest seen
    else
      dedupVideos rest seen

/-- Provenance stripping of `save_videos_data` (simple_scraper.py lines
733-737): drop the `figure_id` and `figure_index` keys of every record. -/
def stripProvenance (videos : List Record) : List Record :=
  videos.map (fun video =>
    video.filter (fun p => p.1 ∉ ["figure_id", "figure_index"]))

/-- CSV fieldnames of `save_videos_data` (simple_scraper.py lines
748-752): the sorted set of all keys occurring in any record. -/
def csvFieldnames (videos : List Record) : List String :=
  List.insertionSort (· ≤ ·) (videos.flatMap keysOf).dedup

/-- `category_name.split("_", 1)`: the part before the first underscore
and everything after it. -/
def splitFirstUnderscore (cs : List Char) : List Char × List Char :=
  (cs.takeWhile (fun c => c ≠ '_'), (cs.dropWhile (fun c => c ≠ '_')).drop 1)

/-- Folder path computation of `save_videos_data` (simple_scraper.py
lines 706-714): split the grouping key on the first underscore into
`category/subcategory` (joined by `os.path.join`), else sanitize the
name (keep alphanumerics, spaces, hyphens, underscores; strip trailing
whitespace). -/
def saveFolderPath (category_name : String) : String :=
  if category_name.data.contains '_' then
    let parts := splitFirstUnderscore category_name.data
    String.mk (parts.1 ++ '/' :: parts.2)
  else
    String.mk (((category_name.data.filter
        (fun c => c.isAlphanum ∨ c ∈ [' ', '-', '_'])).reverse.dropWhile
        (fun c => c.isWhitespace)).reverse)

/-- The write effects of one `save_videos_data` call: the folder that is
created and the two file payloads.  `videos.json` is the flat list of
stripped records; `videos.csv` carries the computed header and the same
rows. -/
structure VideoSaveOut where
  folder : String
  jsonRecords : List Record
  csvHeader : List String
  csvRows : List Record
  deriving DecidableEq, Repr

/-- `save_videos_data` (simple_scraper.py lines 700-758): returns `none`
(no directory creation, no file write) when the record list is empty;
otherwise deduplicates, strips provenance and produces both payloads.
The same code appears verbatim in range_scraper.py lines 998-1056. -/
def save_videos_data (videos_data : List Record) (category_name : String) :
    Option VideoSaveOut :=
  if videos_data.isEmpty then none
  else
    let unique_videos := dedupVideos videos_data []
    let filtered_videos := stripProvenance unique_videos
    some { folder := saveFolderPath category_name
           jsonRecords := filtered_videos
           csvHeader := if filtered_videos.isEmpty then []
                        else csvFieldnames filtered_videos
           csvRows := if filtered_videos.isEmpty then [] else filtered_videos }

/-! ### `save_images_data` — the record store write for image records

`image_scraper.py` lines 1089-1143.  Unlike the video variant it does
not deduplicate, does not strip provenance fields, wraps the records in
a JSON object (`timestamp`/`category`/`total_images`/`images`) rather
than writing a flat array, and uses a fixed four-column CSV header. -/

/-- The JSON payload written by `save_images_data`
(image_scraper.py lines 1124-1130): an object, not a flat array. -/
structure ImagesJsonOut where
  timestamp : String
  category : String
  total_images : Nat
  images : List Record
  deriving DecidableEq, Repr

/-- The write effects of one `save_images_data` call. -/
structure ImageSaveOut where
  folder : String
  csvHeader : List String
  csvRows : List Record
  jsonOut : ImagesJsonOut
  deriving DecidableEq, Repr

/-- One CSV row of `save_images_data` (image_scraper.py lines
1112-1118): the four fixed fields, defaulted to `''`. -/
def imageCsvRow (image_data : Record) : Record :=
  [("image_url", getD image_data "image_url" (JVal.str "")),
   ("prompt", getD image_data "prompt" (JVal.str "")),
   ("figure_index", getD image_data "figure_index" (JVal.str "")),
   ("figure_id", getD image_data "figure_id" (JVal.str ""))]

/-- `save_images_data` (image_scraper.py lines 1089-1143): returns
`none` (no directory creation, no file write) when the record list is
empty; otherwise writes the fixed-header CSV and the object-wrapped
JSON with the records unchanged.  The folder name replaces spaces and
slashes with underscores. -/
def save_images_data (images_data : List Record) (category_name : String)
    (timestamp : String) : Option ImageSaveOut :=
  if images_data.isEmpty then none
  else
    some { folder := String.mk (category_name.data.map
             (fun c => if c = ' ' then '_' else if c = '/' then '_' else c))
           csvHeader := ["image_url", "prompt", "figure_index", "figure_id"]
           csvRows := images_data.map imageCsvRow
           jsonOut := { timestamp := timestamp
                        category := category_name
                        total_images := images_data.length
                        images := images_data } }

/-- `s.startswith(pat)` on Python strings. -/
def pyStartsWith (s pat : String) : Bool :=
  s.data.take pat.data.length = pat.data

/-- Embed an optional Python string value into a record field
(`None` becomes JSON `null`). -/
def optStrJ : Option String → JVal
  | some s => JVal.str s
  | none => JVal.null

/-! ### Content loader scroll loops (claim C5)

Three variants exist in the source.  Each is modelled over an oracle
`hs : Nat → Nat` giving the page height measured after the (i+1)-st
scroll, plus the initial height `h0`. -/

namespace SS

/-- The `while True` loop of `scroll_to_load_all_content`
(simple_scraper.py lines 400-425): scroll, wait, measure; stop as soon
as one measurement equals the previous height.  There is no attempt
cap, so the loop need not terminate; `fuel` bounds how many iterations
we are willing to unfold, and `some n` means the loop exited after `n`
scroll iterations within that budget. -/
def scrollGo (hs : Nat → Nat) : Nat → Nat → Nat → Option Nat
  | _, _, 0 => none
  | last_height, i, fuel + 1 =>
    let new_height := hs i
    if new_height = last_height then some (i + 1)
    else scrollGo hs new_height (i + 1) fuel

/-- `scroll_to_load_all_content` of simple_scraper.py, observed through
its scroll-iteration count. -/
def scroll_to_load_all_content (h0 : Nat) (hs : Nat → Nat) (fuel : Nat) : Option Nat :=
  scrollGo hs h0 0 fuel

end SS

namespace RS

/-- The `while scroll_attempts < max_scroll_attempts` loop of
`scroll_to_load_all_content` (range_scraper.py lines 687-721),
`max_scroll_attempts = 10`: stop at the first unchanged measurement or
when the attempt counter reaches the cap.  Returns the number of scroll
iterations executed. -/
def scrollGo (hs : Nat → Nat) : Nat → Nat → Nat → Nat
  | _, _, 0 => 0
  | last_height, i, rem + 1 =>
    let new_height := hs i
    if new_height = last_height then 1
    else 1 + scrollGo hs new_height (i + 1) rem

/-- `scroll_to_load_all_content` of range_scraper.py, observed through
its scroll-iteration count (`max_scroll_attempts = 10`). -/
def scroll_to_load_all_content (h0 : Nat) (hs : Nat → Nat) : Nat :=
  scrollGo hs h0 0 10

end RS

namespace IS

/-- The Phase-1 loop of `scroll_to_load_all_content` (image_scraper.py
lines 672-698): `while scroll_attempts < 15 and consecutive_same_height
< 3`; an unchanged measurement increments the consecutive counter,
a changed one resets it.  Returns (iterations executed, final value of
`consecutive_same_height`). -/
def scrollGo (hs : Nat → Nat) : Nat → Nat → Nat → Nat → Nat × Nat
  | _, _, consec, 0 => (0, consec)
  | last_height, i, consec, rem + 1 =>
    if consec < 3 then
      let new_height := hs i
      let consec2 := if new_height = last_height then consec + 1 else 0
      let r := scrollGo hs new_height (i + 1) consec2 rem
      (r.1 + 1, r.2)
    else (0, consec)

/-- `scroll_to_load_all_content` of image_scraper.py
(`max_scroll_attempts = 15`), observed through its Phase-1 loop. -/
def scroll_to_load_all_content (h0 : Nat) (hs : Nat → Nat) : Nat × Nat :=
  scrollGo hs h0 0 0 15

end IS

/-! ### The per-item extraction retry loop (claim C6) and the item
interaction cycle (claim C2)

The oracles below describe how the page behaves for one enumerated
item: whether each click mechanism succeeds, what each successive
`extract_prompt_from_popup()` call returns, and whether the
re-click that reopens the modal after a duplicate raises. -/

/-- The dictionary returned by the video variants of
`extract_prompt_from_popup` (both keys always present, values possibly
`None`). -/
structure SSExtract where
  video_url : Option String
  prompt : Option String
  deriving DecidableEq, Repr

/-- `existing_urls = [v.get('video_url') for v in videos_data if
v.get('video_url')]` (simple_scraper.py line 317). -/
def existingUrls (videos_data : List Record) : List JVal :=
  (videos_data.map (fun v => getD v "video_url" JVal.null)).filter jTruthy

/-- The `for retry in range(3)` extraction retry loop
(simple_scraper.py lines 309-335; the identical loop appears in
range_scraper.py lines 584-610).  `att t` is the result of the t-th
`extract_prompt_from_popup()` call, `reclickOk t` tells whether the
JavaScript re-click after a duplicate URL raises.  Returns the final
`extracted_data` and the number of extraction attempts performed. -/
def retryLoopFor (att : Nat → Option SSExtract) (reclickOk : Nat → Bool)
    (existing_urls : List JVal) : List Nat → Option SSExtract × Nat
  | [] => (none, 0)
  | retry :: rest =>
    let extracted_data := att retry
    let stop : Bool :=
      match extracted_data with
      | some ed =>
        if strTruthy ed.video_url then
          if existing_urls.isEmpty
              || ! existing_urls.contains (JVal.str (ed.video_url.getD "")) then
            true
          else
            ! reclickOk retry
        else false
      | none => false
    if stop || rest.isEmpty then (extracted_data, 1)
    else
      let r := retryLoopFor att reclickOk existing_urls rest
      (r.1, r.2 + 1)

/-- The retry loop instantiated with `range(3)`. -/
def extractRetryLoop (att : Nat → Option SSExtract) (reclickOk : Nat → Bool)
    (existing_urls : List JVal) : Option SSExtract × Nat :=
  retryLoopFor att reclickOk existing_urls (List.range 3)

/-- Oracle for one enumerated figure: the outcomes of every probe the
interaction cycle performs on it. -/
structure ItemO where
  figure_url : Option String
  figure_id : Option String
  hasLink : Bool
  clickRegular : Bool
  clickJS : Bool
  clickAC : Bool
  att : Nat → Option SSExtract
  reclickOk : Nat → Bool

namespace SS

/-- The record appended when no usable data was extracted
(simple_scraper.py lines 360-374). -/
def fallbackRecord (it : ItemO) (i : Nat) : Record :=
  let final_video_url :=
    if ¬ strTruthy it.figure_url ∧ strTruthy it.figure_id then
      "placeholder_video_" ++ it.figure_id.getD ""
    else if ¬ strTruthy it.figure_url then
      "placeholder_video_" ++ toString (i + 1)
    else it.figure_url.getD ""
  [("video_url", JVal.str final_video_url),
   ("prompt", JVal.str "No prompt found"),
   ("figure_index", JVal.num (Int.ofNat (i + 1))),
   ("figure_id", optStrJ it.figure_id)]

/-- The click-and-extract path of the cycle (simple_scraper.py lines
267-374): three click mechanisms, the retry loop, then a record is
appended whichever way extraction went; if all clicks fail the item is
skipped. -/
def mainPath (it : ItemO) (i : Nat) (videos_data : List Record) : List Record :=
  let clicked := it.clickRegular || it.clickJS || it.clickAC
  if ¬ clicked then videos_data
  else
    let existing := existingUrls videos_data
    let extracted_data := (extractRetryLoop it.att it.reclickOk existing).1
    match extracted_data with
    | some ed =>
      if strTruthy ed.prompt || strTruthy ed.video_url then
        let f0 := pyOr ed.video_url it.figure_url
        let final_video_url :=
          if ¬ strTruthy f0 ∧ strTruthy it.figure_id then
            "placeholder_video_" ++ it.figure_id.getD ""
          else if ¬ strTruthy f0 then
            "placeholder_video_" ++ toString (i + 1)
          else f0.getD ""
        videos_data ++
          [[("video_url", JVal.str final_video_url),
            ("prompt", optStrJ ed.prompt),
            ("figure_index", JVal.num (Int.ofNat (i + 1))),
            ("figure_id", optStrJ it.figure_id)]]
      else videos_data ++ [fallbackRecord it i]
    | none => videos_data ++ [fallbackRecord it i]

/-- Processing of one enumerated figure (simple_scraper.py lines
177-389): skip when no clickable link; when the figure exposes an http
video URL directly, click with two mechanisms and append a record built
from the figure URL, falling back to the full click path if both
mechanisms fail. -/
def processOne (it : ItemO) (i : Nat) (videos_data : List Record) : List Record :=
  if ¬ it.hasLink then videos_data
  else if (match it.figure_url with
           | some s => s ≠ "" && pyStartsWith s "http"
           | none => false) then
    let clicked := it.clickRegular || it.clickJS
    if clicked then
      let extracted_data := it.att 0
      let prompt :=
        match extracted_data with
        | some ed => optStrJ ed.prompt
        | none => JVal.str "No prompt found"
      videos_data ++
        [[("video_url", JVal.str (it.figure_url.getD "")),
          ("prompt", prompt),
          ("figure_index", JVal.num (Int.ofNat (i + 1))),
          ("figure_id", optStrJ it.figure_id)]]
    else mainPath it i videos_data
  else mainPath it i videos_data

/-- The whole interaction cycle over the enumerated figures
(`for i, figure in enumerate(figures)`). -/
def processFiguresGo : List ItemO → Nat → List Record → List Record
  | [], _, videos_data => videos_data
  | it :: rest, i, videos_data =>
    processFiguresGo rest (i + 1) (processOne it i videos_data)

def processFigures (figures : List ItemO) : List Record :=
  processFiguresGo figures 0 []

/-- An item counts as opened when it has a clickable link and at least
one click mechanism succeeds. -/
def opened (it : ItemO) : Bool :=
  it.hasLink && (it.clickRegular || it.clickJS || it.clickAC)

end SS

/-- The dictionary returned by the image variant of
`extract_prompt_from_popup` (image_scraper.py lines 804-978): the
prompt slot is always a non-optional string (`prompt_text or 'No
prompt found'`, or the error sentinel). -/
structure ISExtract where
  image_url : Option String
  prompt : String
  deriving DecidableEq, Repr

/-- Oracle for one enumerated image figure.  The image cycle always has
a click target (the figure itself is the fallback), so no `hasLink`
gate exists. -/
structure ISItemO where
  figure_url : Option String
  figure_id : Option String
  clickRegular : Bool
  clickJS : Bool
  clickAC : Bool
  att : Nat → ISExtract
  reclickOk : Nat → Bool

namespace IS

/-- `existing_urls = [v.get('image_url') for v in images_data if
v.get('image_url')]` (image_scraper.py line 565). -/
def existingUrls (images_data : List Record) : List JVal :=
  (images_data.map (fun v => getD v "image_url" JVal.null)).filter jTruthy

/-- The `for retry in range(3)` retry loop of image_scraper.py lines
558-583, structurally identical to the video variants but keyed on
`image_url` and with the extractor always returning a dictionary. -/
def retryLoopFor (att : Nat → ISExtract) (reclickOk : Nat → Bool)
    (existing_urls : List JVal) : List Nat → ISExtract × Nat
  | [] => ({ image_url := none, prompt := "No prompt found" }, 0)
  | retry :: rest =>
    let extracted_data := att retry
    let stop : Bool :=
      if strTruthy extracted_data.image_url then
        if existing_urls.isEmpty
            || ! existing_urls.contains
                (JVal.str (extracted_data.image_url.getD "")) then
          true
        else
          ! reclickOk retry
      else false
    if stop || rest.isEmpty then (extracted_data, 1)
    else
      let r := retryLoopFor att reclickOk existing_urls rest
      (r.1, r.2 + 1)

/-- The retry loop instantiated with `range(3)`. -/
def extractRetryLoop (att : Nat → ISExtract) (reclickOk : Nat → Bool)
    (existing_urls : List JVal) : ISExtract × Nat :=
  retryLoopFor att reclickOk existing_urls (List.range 3)

/-- The record appended when extraction produced no usable data
(image_scraper.py lines 608-621). -/
def fallbackRecord (it : ISItemO) (i : Nat) : Record :=
  let final_image_url :=
    if ¬ strTruthy it.figure_url ∧ strTruthy it.figure_id then
      "placeholder_image_" ++ it.figure_id.getD ""
    else if ¬ strTruthy it.figure_url then
      "placeholder_image_" ++ toString (i + 1)
    else it.figure_url.getD ""
  [("image_url", JVal.str final_image_url),
   ("prompt", JVal.str "No prompt found"),
   ("figure_index", JVal.num (Int.ofNat (i + 1))),
   ("figure_id", optStrJ it.figure_id)]

/-- The click-and-extract path of the image cycle (image_scraper.py
lines 519-623). -/
def mainPath (it : ISItemO) (i : Nat) (images_data : List Record) : List Record :=
  let clicked := it.clickRegular || it.clickJS || it.clickAC
  if ¬ clicked then images_data
  else
    let existing := existingUrls images_data
    let extracted_data := (extractRetryLoop it.att it.reclickOk existing).1
    if extracted_data.prompt ≠ "" || strTruthy extracted_data.image_url then
      let f0 := pyOr extracted_data.image_url it.figure_url
      let final_image_url :=
        if ¬ strTruthy f0 ∧ strTruthy it.figure_id then
          "placeholder_image_" ++ it.figure_id.getD ""
        else if ¬ strTruthy f0 then
          "placeholder_image_" ++ toString (i + 1)
        else f0.getD ""
      images_data ++
        [[("image_url", JVal.str final_image_url),
          ("prompt", JVal.str extracted_data.prompt),
          ("figure_index", JVal.num (Int.ofNat (i + 1))),
          ("figure_id", optStrJ it.figure_id)]]
    else images_data ++ [fallbackRecord it i]

/-- Processing of one enumerated image figure (image_scraper.py lines
401-641); `actual_index = total_images - i` since the list is walked in
reverse. -/
def processOne (it : ISItemO) (i actual_index : Nat) (images_data : List Record) :
    List Record :=
  if (match it.figure_url with
      | some s => s ≠ "" && pyStartsWith s "http"
      | none => false) then
    let clicked := it.clickRegular || it.clickJS
    if clicked then
      let extracted_data := it.att 0
      images_data ++
        [[("image_url", JVal.str (it.figure_url.getD "")),
          ("prompt", JVal.str extracted_data.prompt),
          ("figure_index", JVal.num (Int.ofNat actual_index)),
          ("figure_id", optStrJ it.figure_id)]]
    else mainPath it i images_data
  else mainPath it i images_data

/-- `for i, figure in enumerate(reversed(figures))`. -/
def processFiguresGo (total : Nat) : List ISItemO → Nat → List Record → List Record
  | [], _, images_data => images_data
  | it :: rest, i, images_data =>
    processFiguresGo total rest (i + 1) (processOne it i (total - i) images_data)

def processFigures (figures : List ISItemO) : List Record :=
  processFiguresGo figures.length figures.reverse 0 []

/-- An image item counts as opened when any click mechanism succeeds. -/
def opened (it : ISItemO) : Bool :=
  it.clickRegular || it.clickJS || it.clickAC

end IS

/-- Lookup of a key in a record (`r[k]` / `r.get(k)`). -/
def lookupKey (r : Record) (k : String) : Option JVal :=
  (r.find? (fun p => p.1 = k)).map Prod.snd

/-! ### `metadata_updater.py` — the catalog count write-back (claim C4)

`update_metadata_json` (metadata_updater.py lines 117-173) loads one
category's `metadata.json`, walks `metadata['sub_categories']`, writes
a `video_count` into every entry (the matched analysis count, or 0
when no analysis matches), and dumps the whole object back.  Any
exception (missing `sub_categories`, non-list value, entry without a
string `name`) is caught and the function returns `False` with no file
write. -/

namespace MU

/-- One result of `analyze_videos_json` (metadata_updater.py lines
60-100); `video_count = len(videos_data)`. -/
structure Analysis where
  subcategory_path : String
  video_count : Nat
  deriving DecidableEq, Repr

/-- A top-level value of the metadata object: either an opaque scalar
or the `sub_categories` list of entry dictionaries. -/
inductive MetaVal where
  | scalar : JVal → MetaVal
  | subList : List Record → MetaVal
  deriving DecidableEq, Repr

/-- Python dict assignment `m[k] = v`: overwrite in place if the key
exists, else append (insertion order preserved). -/
def dictInsert (m : List (String × Analysis)) (k : String) (v : Analysis) :
    List (String × Analysis) :=
  if m.any (fun p => p.1 = k) then
    m.map (fun p => if p.1 = k then (k, v) else p)
  else m ++ [(k, v)]

/-- `video_data_map[analysis['subcategory_path']] = analysis` over all
analyses (metadata_updater.py lines 138-141). -/
def buildVideoDataMap (analyses : List Analysis) : List (String × Analysis) :=
  analyses.foldl (fun m a => dictInsert m a.subcategory_path a) []

/-- `s.replace(' ', '')`. -/
def stripSpaces (s : String) : String :=
  String.mk (s.data.filter (fun c => c ≠ ' '))

/-- The matching scan of metadata_updater.py lines 148-153: first map
entry whose key equals the subcategory name exactly or after removing
spaces. -/
def findMatching (m : List (String × Analysis)) (name : String) : Option Analysis :=
  (m.find? (fun p => p.1 = name ∨ stripSpaces p.1 = stripSpaces name)).map Prod.snd

/-- Python dict assignment on a record: `sub[k] = v`. -/
def setKey : Record → String → JVal → Record
  | [], k, v => [(k, v)]
  | (k1, v1) :: rest, k, v =>
    if k1 = k then (k, v) :: rest else (k1, v1) :: setKey rest k v

/-- `subcategory['name']`, which must be a string (anything else makes
the update raise and abort). -/
def getNameStr (sub : Record) : Option String :=
  match sub.find? (fun p => p.1 = "name") with
  | some (_, JVal.str s) => some s
  | _ => none

/-- The per-entry update of metadata_updater.py lines 145-162:
`sub['video_count'] = matched count` or `0` when nothing matches. -/
def updateOne (m : List (String × Analysis)) (sub : Record) (name : String) : Record :=
  match findMatching m name with
  | some a => setKey sub "video_count" (JVal.num (Int.ofNat a.video_count))
  | none => setKey sub "video_count" (JVal.num 0)

/-- `update_metadata_json` (metadata_updater.py lines 117-173), as the
metadata object it writes back; `none` models "returned False, nothing
written" (missing `sub_categories` key, non-list value, or an entry
whose `name` is absent or not a string). -/
def update_metadata_json (analyses : List Analysis)
    (metadata : List (String × MetaVal)) : Option (List (String × MetaVal)) :=
  match metadata.find? (fun p => p.1 = "sub_categories") with
  | none => none
  | some (_, MetaVal.scalar _) => none
  | some (_, MetaVal.subList subs) =>
    match subs.mapM (fun sub => (getNameStr sub).map (fun n => (sub, n))) with
    | none => none
    | some subsWithNames =>
      let video_data_map := buildVideoDataMap analyses
      let newSubs := subsWithNames.map (fun p => updateOne video_data_map p.1 p.2)
      some (metadata.map (fun p =>
        if p.1 = "sub_categories" then (p.1, MetaVal.subList newSubs) else p))

end MU

/-! ### Detail extractors (claim C9)

Each variant of `extract_prompt_from_popup` is wrapped in one outer
`try/except`.  The page is modelled by the outcome of every primitive
probe the body performs; `none` on a probe field means that probe
raised a WebDriver exception.  Inner `try/except` blocks, list probes
and regex matches become total functions, so the only way the body can
fail is the one uncaught lookup in each variant (the modal wait in
simple_scraper, the body-element lookup in range/image_scraper). -/

/-- `s.endswith(pat)`. -/
def pyEndsWith (s pat : String) : Bool :=
  s.data.drop (s.data.length - pat.data.length) = pat.data ∧ pat.data.length ≤ s.data.length

/-- Occurrence of `pat` as a substring of `l` (Python `pat in s`). -/
def substrAux (pat : List Char) : List Char → Bool
  | [] => pat.isEmpty
  | c :: rest => ((c :: rest).take pat.length = pat) || substrAux pat rest

def hasSubstr (s pat : String) : Bool := substrAux pat.data s.data

/-- `s.strip()`. -/
def pyStripL (l : List Char) : List Char :=
  ((l.dropWhile Char.isWhitespace).reverse.dropWhile Char.isWhitespace).reverse

def pyStrip (s : String) : String := String.mk (pyStripL s.data)

/-- A character list with no leading and no trailing whitespace
(`l.strip() == l`). -/
@[reducible] def trimmedL (l : List Char) : Prop :=
  l.dropWhile Char.isWhitespace = l ∧
  l.reverse.dropWhile Char.isWhitespace = l.reverse

/-- `s.split(sep)` on character lists (empty segments preserved). -/
def splitChar (sep : Char) : List Char → List (List Char)
  | [] => [[]]
  | c :: rest =>
    let r := splitChar sep rest
    if c = sep then [] :: r
    else
      match r with
      | [] => [[c]]
      | seg :: segs => (c :: seg) :: segs

def lowerL (l : List Char) : List Char := l.map Char.toLower

namespace SS

/-- Probe outcomes inside the modal found by simple_scraper's
`extract_prompt_from_popup` (lines 469-552). -/
structure Modal where
  /-- successive `get_attribute('src')` reads of the `video[src]`
  element; `none` on the outer option means the 8-second wait raised,
  and the list ends early when the re-find inside the read loop
  raises. -/
  videoElemReads : Option (List (Option String))
  /-- `modal.find_element("video source[src]")` then its `src`. -/
  sourceElemSrc : Option (Option String)
  /-- `[data-video-url], [data-src]` element, value already or-ed. -/
  dataAttrVal : Option (Option String)
  /-- `[data-copy-prompt]` button text, stripped. -/
  copyButtonText : Option String
  /-- sibling text probed when the button text is empty or "true". -/
  siblingText : Option String
  /-- `.prompt, [data-prompt], .description, p` text, stripped. -/
  fallbackText : Option String

/-- The page as the extractor sees it; `modal = none` means the
10-second `WebDriverWait` raised. -/
structure Page where
  modal : Option Modal

/-- `if video_url and not video_url.endswith('placeholder') and
'blob:' not in video_url` (line 492). -/
def validSrc : Option String → Bool
  | none => false
  | some s => s ≠ "" && ! pyEndsWith s "placeholder" && ! hasSubstr s "blob:"

/-- The `for attempt in range(5)` src-read loop (lines 490-500):
assign, test, break on a valid value or when the re-find fails. -/
def srcLoop : Nat → Option String → List (Option String) → Option String
  | _, video_url, [] => video_url
  | 0, video_url, _ => video_url
  | fuel + 1, _, r :: rest => if validSrc r then r else srcLoop fuel r rest

/-- The media-URL cascade of simple_scraper lines 482-519. -/
def videoUrlOf (m : Modal) : Option String :=
  let afterLoop :=
    match m.videoElemReads with
    | none => none
    | some reads => srcLoop 5 none reads
  let isBlob :=
    match afterLoop with
    | some s => hasSubstr s "blob:"
    | none => false
  if ¬ strTruthy afterLoop || isBlob then
    match m.sourceElemSrc with
    | some v => v
    | none =>
      match m.dataAttrVal with
      | some v => v
      | none => afterLoop
  else afterLoop

/-- The prompt cascade of simple_scraper lines 521-543. -/
def promptOf (m : Modal) : Option String :=
  match m.copyButtonText with
  | some t =>
    if t = "" || t = "true" then
      match m.siblingText with
      | some st => some st
      | none => some t
    else some t
  | none =>
    match m.fallbackText with
    | some t => some t
    | none => none

/-- The body of `extract_prompt_from_popup` (lines 471-548): raises
exactly when the modal wait raises. -/
def extractBody (p : Page) : Except Unit SSExtract :=
  match p.modal with
  | none => Except.error ()
  | some m => Except.ok { video_url := videoUrlOf m, prompt := promptOf m }

/-- `extract_prompt_from_popup` of simple_scraper.py (lines 469-552):
the outer `except` returns **`None`**, not a sentinel dictionary. -/
def extract_prompt_from_popup (p : Page) : Except Unit (Option SSExtract) :=
  match extractBody p with
  | Except.ok r => Except.ok (some r)
  | Except.error _ => Except.ok none

end SS

/-- The dictionary returned by range_scraper's
`extract_prompt_from_popup`: the prompt slot is or-defaulted to a
string. -/
structure RSExtract where
  video_url : Option String
  prompt : String
  deriving DecidableEq, Repr

namespace RS

/-- Probe outcomes inside the popup found by range_scraper's
`extract_prompt_from_popup` (lines 786-898). -/
structure Modal where
  /-- per video selector: `none` = find raised, otherwise
  `src or data-src` of the found element. -/
  videoProbes : List (Option (Option String))
  /-- per prompt selector: `none` = raised, otherwise the raw texts of
  the found elements. -/
  promptProbes : List (Option (List String))
  /-- `popup_element.text` for the generic fallback. -/
  popupText : Option String

/-- The page: `popupSel` is the outcome of the popup-selector wait
loop (all selectors timing out gives `none`), `bodyFind` of the
uncaught `find_element(By.TAG_NAME, "body")` fallback. -/
structure Page where
  popupSel : Option Modal
  bodyFind : Option Modal

/-- The video-URL selector loop of range_scraper lines 829-837:
`video_url` keeps the last found value and the loop breaks on the
first truthy one. -/
def urlLoop : Option String → List (Option (Option String)) → Option String
  | video_url, [] => video_url
  | video_url, probe :: rest =>
    match probe with
    | none => urlLoop video_url rest
    | some v => if strTruthy v then v else urlLoop v rest

/-- The prompt selector loop of range_scraper lines 854-866: first
stripped element text longer than 10 characters. -/
def promptLoop : List (Option (List String)) → Option String
  | [] => none
  | probe :: rest =>
    match probe with
    | none => promptLoop rest
    | some texts =>
      match texts.findSome? (fun t0 =>
        let t := pyStrip t0
        if t ≠ "" && t.data.length > 10 then some t else none) with
      | some t => some t
      | none => promptLoop rest

/-- Chrome keywords of the generic fallback (lines 876-877). -/
def uiWords : List String :=
  ["close", "share", "download", "like", "follow", "subscribe", "view", "play"]

/-- The generic text fallback of range_scraper lines 869-883: split the
popup text into stripped non-empty lines, keep lines longer than 15
characters containing no UI keyword, take the first. -/
def genericFallback (popupText : Option String) : Option String :=
  match popupText with
  | none => none
  | some all0 =>
    let all_text := pyStripL all0.data
    let lines := ((splitChar '\n' all_text).map pyStripL).filter (fun l => l ≠ [])
    let meaningful := lines.filter (fun l =>
      l.length > 15 && uiWords.all (fun w => ! substrAux w.data (lowerL l)))
    match meaningful with
    | [] => none
    | l :: _ => some (String.mk l)

/-- The body of range_scraper's `extract_prompt_from_popup`: the only
uncaught probe is the body-element fallback lookup. -/
def extractBody (p : Page) : Except Unit RSExtract :=
  let popup_element :=
    match p.popupSel with
    | some m => some m
    | none => p.bodyFind
  match popup_element with
  | none => Except.error ()
  | some m =>
    let video_url := urlLoop none m.videoProbes
    let prompt0 :=
      match promptLoop m.promptProbes with
      | some t => some t
      | none => genericFallback m.popupText
    let prompt :=
      match prompt0 with
      | some t => if t = "" then "No prompt found" else t
      | none => "No prompt found"
    Except.ok { video_url := video_url, prompt := prompt }

/-- `extract_prompt_from_popup` of range_scraper.py (lines 786-898):
the outer `except` returns the sentinel dictionary. -/
def extract_prompt_from_popup (p : Page) : Except Unit RSExtract :=
  match extractBody p with
  | Except.ok r => Except.ok r
  | Except.error _ =>
    Except.ok { video_url := none, prompt := "Error extracting prompt" }

end RS

namespace IS

/-- One `img`-like element probed by image_scraper's URL cascade
(lines 855-904), with the regex outcomes on its attributes recorded. -/
structure ImgEl where
  src : Option String
  srcset : Option String
  /-- `re.findall(r'(https?://[^\s]+)\s+(\d+)w', srcset)`. -/
  srcsetMatches : List (String × Nat)
  dataSrc : Option String
  style : Option String
  /-- `re.search(r'background-image: url(...)', style)`, group 1. -/
  bgMatch : Option String

/-- Probe outcomes inside the popup found by image_scraper's
`extract_prompt_from_popup` (lines 804-978). -/
structure Modal where
  imgProbes : List (Option (List ImgEl))
  promptProbes : List (Option (List String))
  popupText : Option String

structure Page where
  popupSel : Option Modal
  bodyFind : Option Modal

/-- `v and v.startswith('http') and not v.endswith('.svg')`. -/
def validHttp : Option String → Bool
  | none => false
  | some s => s ≠ "" && pyStartsWith s "http" && ! pyEndsWith s ".svg"

/-- Python `max(xs, key=lambda x: int(x[1]))`: first maximum. -/
def maxByWidth : (String × Nat) → List (String × Nat) → (String × Nat)
  | best, [] => best
  | best, p :: rest => maxByWidth (if p.2 > best.2 then p else best) rest

/-- Per-element URL cascade of image_scraper lines 858-897:
src, then srcset (highest width), then data-src, then the
background-image of the inline style. -/
def elemUrl (img : ImgEl) : Option String :=
  if validHttp img.src then img.src
  else if strTruthy img.srcset && ! img.srcsetMatches.isEmpty then
    match img.srcsetMatches with
    | [] => none
    | p :: rest => some (maxByWidth p rest).1
  else if validHttp img.dataSrc then img.dataSrc
  else if strTruthy img.style && hasSubstr (img.style.getD "") "background-image" then
    match img.bgMatch with
    | some bg =>
      if pyStartsWith bg "http" && ! pyEndsWith bg ".svg" then some bg else none
    | none => none
  else none

/-- The image-URL selector loop of image_scraper lines 855-904. -/
def imgUrlLoop : List (Option (List ImgEl)) → Option String
  | [] => none
  | probe :: rest =>
    match probe with
    | none => imgUrlLoop rest
    | some imgs =>
      match imgs.findSome? elemUrl with
      | some u => some u
      | none => imgUrlLoop rest

/-- UI keywords of the selector-based prompt scan (line 939). -/
def uiStartsMain : List String :=
  ["close", "share", "download", "like", "save", "prompt"]

/-- UI keywords of the generic fallback (line 960). -/
def uiStartsFallback : List String :=
  ["close", "share", "download", "like", "save"]

/-- `text.lower().startswith(tuple)`. -/
def lowerStartsAny (l : List Char) (ws : List String) : Bool :=
  ws.any (fun w => (lowerL l).take w.data.length = w.data)

/-- The prompt selector loop of image_scraper lines 933-949: first
stripped text longer than 20 characters not starting with a UI
keyword. -/
def promptLoop : List (Option (List String)) → Option String
  | [] => none
  | probe :: rest =>
    match probe with
    | none => promptLoop rest
    | some texts =>
      match texts.findSome? (fun t0 =>
        let t := pyStripL t0.data
        if t ≠ [] && t.length > 20 && ! lowerStartsAny t uiStartsMain then
          some (String.mk t)
        else none) with
      | some t => some t
      | none => promptLoop rest

/-- The generic text fallback of image_scraper lines 952-965. -/
def genericFallback (popupText : Option String) : Option String :=
  match popupText with
  | none => none
  | some all0 =>
    let all_text := pyStripL all0.data
    if all_text ≠ [] && all_text.length > 10 then
      let lines := ((splitChar '\n' all_text).map pyStripL).filter (fun l => l ≠ [])
      match lines.filter (fun l =>
          l.length > 20 && ! lowerStartsAny l uiStartsFallback) with
      | [] => none
      | l :: _ => some (String.mk l)
    else none

/-- The body of image_scraper's `extract_prompt_from_popup`: the only
uncaught probe is the body-element fallback lookup (line 837). -/
def extractBody (p : Page) : Except Unit ISExtract :=
  let popup_element :=
    match p.popupSel with
    | some m => some m
    | none => p.bodyFind
  match popup_element with
  | none => Except.error ()
  | some m =>
    let image_url := imgUrlLoop m.imgProbes
    let prompt0 :=
      match promptLoop m.promptProbes with
      | some t => some t
      | none => genericFallback m.popupText
    let prompt :=
      match prompt0 with
      | some t => if t = "" then "No prompt found" else t
      | none => "No prompt found"
    Except.ok { image_url := image_url, prompt := prompt }

/-- `extract_prompt_from_popup` of image_scraper.py (lines 804-978):
the outer `except` returns the sentinel dictionary. -/
def extract_prompt_from_popup (p : Page) : Except Unit ISExtract :=
  match extractBody p with
  | Except.ok r => Except.ok r
  | Except.error _ =>
    Except.ok { image_url := none, prompt := "Error extracting prompt" }

end IS

/-! ### Low-count report: writer and parser (claim C8)

`low_video_count_analysis.save_results_to_file` (lines 50-79) writes a
plain-text report; `range_scraper.parse_low_video_count_file` (lines
41-99) parses it back line by line.  Strings are modelled as character
lists so that the `strip`/`startswith`/`replace` manipulations stay
computable and provable. -/

/-- Decimal digit to character. -/
def digitChar : Nat → Char
  | 0 => '0' | 1 => '1' | 2 => '2' | 3 => '3' | 4 => '4'
  | 5 => '5' | 6 => '6' | 7 => '7' | 8 => '8' | 9 => '9'
  | _ => '?'

/-- Little-endian decimal digits of `n`; the fuel (at least the digit
count, `natToChars` passes `n` itself) drives structural recursion. -/
def natToCharsGo : Nat → Nat → List Char
  | 0, _ => []
  | fuel + 1, n =>
    if n = 0 then [] else digitChar (n % 10) :: natToCharsGo fuel (n / 10)

/-- `str(n)` for a natural number. -/
def natToChars (n : Nat) : List Char :=
  if n = 0 then ['0'] else (natToCharsGo n n).reverse

/-- `str(i)` for an integer. -/
def intToChars (i : Int) : List Char :=
  if i < 0 then '-' :: natToChars i.natAbs else natToChars i.toNat

/-- `int(s)` on a digit string (the parser applies it to a `\d+`
match). -/
def parseNatL (l : List Char) : Nat :=
  l.foldl (fun acc c => acc * 10 + (c.toNat - 48)) 0

/-- `l.startswith(pat)` on character lists. -/
def startsWithL (l pat : List Char) : Bool :=
  l.take pat.length = pat

namespace LV

/-- One value of the `results` dict built by
`analyze_low_video_counts`: the fields `save_results_to_file` reads. -/
structure CatData where
  total_subcategories : Nat
  low_count_subcategories : List (String × Int)
  low_count_total : Nat
  deriving DecidableEq, Repr

/-- `f.write(f"  • {sub['name']} (Count: {sub['video_count']})\n")`,
without the final newline. -/
def bulletLine (sub : String × Int) : List Char :=
  "  • ".data ++ sub.1.data ++ " (Count: ".data ++ intToChars sub.2 ++ [')']

/-- The lines one category block contributes
(low_video_count_analysis.py lines 61-71), including the trailing blank
line. -/
def catLines (c : String × CatData) : List (List Char) :=
  ("CATEGORY: ".data ++ c.1.data) ::
  ("Total subcategories: ".data ++ natToChars c.2.total_subcategories) ::
  ("Low count subcategories: ".data ++ natToChars c.2.low_count_total) ::
  List.replicate 40 '-' ::
  (c.2.low_count_subcategories.map bulletLine ++ [[]])

/-- All lines of the report file, in order (low_video_count_analysis.py
lines 54-77); the `"=" * 60 + "\n\n"` write contributes the separator
line plus one blank line. -/
def writerLines (results : List (String × CatData)) : List (List Char) :=
  "CATEGORIES AND SUBCATEGORIES WITH 0 OR 1 VIDEO COUNTS".data ::
  List.replicate 60 '=' ::
  ([] : List Char) ::
  (results.flatMap catLines ++
    ["SUMMARY".data,
     List.replicate 20 '=',
     "Total categories analyzed: ".data ++ natToChars results.length,
     "Categories with low count subcategories: ".data ++ natToChars results.length,
     "Total subcategories with 0 or 1 videos: ".data ++
       natToChars (results.foldl
         (fun acc c => acc + c.2.low_count_subcategories.length) 0)])

/-- Each written chunk ends with `\n`, so the file is the lines joined
with one newline after every line. -/
def joinLines (lines : List (List Char)) : List Char :=
  (lines.map (fun l => l ++ ['\n'])).flatten

/-- `save_results_to_file` (low_video_count_analysis.py lines 50-79):
the full text written to `low_video_count_categories.txt`. -/
def save_results_to_file (results : List (String × CatData)) : List Char :=
  joinLines (writerLines results)

end LV

namespace RS

/-- Parser state: the accumulating dict and `current_category`. -/
structure PState where
  dict : List (String × List (String × Nat))
  current : Option String
  deriving DecidableEq, Repr

/-- Python dict assignment `d[k] = []` (overwrite in place, keep
position; append fresh keys). -/
def pInsert (m : List (String × List (String × Nat))) (k : String) :
    List (String × List (String × Nat)) :=
  if m.any (fun p => p.1 = k) then
    m.map (fun p => if p.1 = k then (k, ([] : List (String × Nat))) else p)
  else m ++ [(k, [])]

/-- `d[k].append(x)`. -/
def pAppend (m : List (String × List (String × Nat))) (k : String)
    (x : String × Nat) : List (String × List (String × Nat)) :=
  m.map (fun p => if p.1 = k then (p.1, p.2 ++ [x]) else p)

/-- `line.replace(pat, '')`: remove every (non-overlapping, leftmost)
occurrence of `pat`.  The fuel argument only drives structural
recursion; `removeAll` supplies the list length, which suffices because
every step consumes at least one character of the list. -/
def removeAllGo (pat : List Char) : Nat → List Char → List Char
  | _, [] => []
  | 0, l => l
  | fuel + 1, c :: rest =>
    if (c :: rest).take pat.length = pat ∧ pat ≠ [] then
      removeAllGo pat fuel ((c :: rest).drop pat.length)
    else c :: removeAllGo pat fuel rest

def removeAll (pat l : List Char) : List Char :=
  removeAllGo pat l.length l

/-- The tail test of the bullet regex
`\s*•\s*(.+?)\s*\(Count:\s*(\d+)\)`: after the group, optional
whitespace, the literal `(Count:`, optional whitespace, a maximal
nonempty digit run, then `)`. -/
def checkCountSuffix (r : List Char) : Option Nat :=
  let r1 := r.dropWhile Char.isWhitespace
  if r1.take 7 = "(Count:".data then
    let r2 := (r1.drop 7).dropWhile Char.isWhitespace
    let ds := r2.takeWhile Char.isDigit
    if ds ≠ [] ∧ (r2.drop ds.length).take 1 = [')'] then some (parseNatL ds)
    else none
  else none

/-- The lazy group `(.+?)`: try group lengths from 1 upwards, stopping
at the first split whose remainder matches the count suffix. -/
def scanMin (acc : List Char) : List Char → Option (List Char × Nat)
  | [] => none
  | c :: rest =>
    match checkCountSuffix rest with
    | some n => some (acc ++ [c], n)
    | none => scanMin (acc ++ [c]) rest

/-- The backtracking greedy `\s*` after `•`: try consuming `k`
whitespace characters, from the maximal run downwards. -/
def goK (u : List Char) : Nat → Option (List Char × Nat)
  | 0 => scanMin [] u
  | k + 1 =>
    match scanMin [] (u.drop (k + 1)) with
    | some r => some r
    | none => goK u k

def wsRun (l : List Char) : Nat := (l.takeWhile Char.isWhitespace).length

/-- `re.match(r'\s*•\s*(.+?)\s*\(Count:\s*(\d+)\)', line)` on the
already-stripped line, followed by `match.group(1).strip()` and
`int(match.group(2))` (range_scraper.py lines 78-81). -/
def bulletMatch (line : List Char) : Option (String × Nat) :=
  match line with
  | [] => none
  | c :: u =>
    if c = '•' then
      match goK u (wsRun u) with
      | some (g, n) => some (String.mk (pyStripL g), n)
      | none => none
    else none

/-- Processing of one stripped line (range_scraper.py lines 56-87). -/
def parseLine (st : PState) (rawLine : List Char) : PState :=
  let line := pyStripL rawLine
  if line.isEmpty || startsWithL line ['='] || startsWithL line ['-']
      || startsWithL line "CATEGORIES".data
      || startsWithL line "SUMMARY".data then st
  else if startsWithL line "CATEGORY:".data then
    let current_category := String.mk (pyStripL (removeAll "CATEGORY:".data line))
    { dict := pInsert st.dict current_category, current := some current_category }
  else if startsWithL line "Total subcategories:".data
      || startsWithL line "Low count subcategories:".data then st
  else if startsWithL line ['•'] then
    match st.current with
    | some current_category =>
      match bulletMatch line with
      | some sub => { st with dict := pAppend st.dict current_category sub }
      | none => st
    | none => st
  else st

/-- `parse_low_video_count_file` (range_scraper.py lines 41-99) on the
file content: fold the line parser over the lines, then drop categories
that collected no subcategories. -/
def parse_low_video_count_file (content : List Char) :
    List (String × List (String × Nat)) :=
  ((splitChar '\n' content).foldl parseLine
    { dict := [], current := none }).dict.filter (fun p => ¬ p.2.isEmpty)

end RS

/-- A subcategory entry of the low-count report whose name survives the
bullet-line regex: nonempty, already stripped, free of `(` (which would
let the lazy group stop early) and of newlines, with a nonnegative
count. -/
@[reducible] def benignSub (s : String × Int) : Prop :=
  s.1.data ≠ [] ∧ trimmedL s.1.data ∧ '(' ∉ s.1.data ∧ '\n' ∉ s.1.data ∧ 0 ≤ s.2

/-- A category entry of the low-count report that the parser can
faithfully recover: stripped nonempty newline-free name not containing
the `CATEGORY:` marker, and a nonempty low-count list (a category with
no low-count subcategories is dropped by the parser's final filter). -/
@[reducible] def benignCat (c : String × LV.CatData) : Prop :=
  c.1.data ≠ [] ∧ trimmedL c.1.data ∧ '\n' ∉ c.1.data ∧
  hasSubstr c.1 "CATEGORY:" = false ∧
  c.2.low_count_subcategories ≠ [] ∧
  ∀ s ∈ c.2.low_count_subcategories, benignSub s

/-- A pair of records never sharing a truthy URL (the uniqueness
property of the dedup pass of `save_videos_data`). -/
def distinctTruthyUrls (a b : Record) : Prop :=
  jTruthy (urlOfVideo a) → jTruthy (urlOfVideo b) → urlOfVideo a ≠ urlOfVideo b

/-! ### Properties of the deduplication pass (claim C1) -/

/-- Every record surviving the dedup pass with a truthy URL has a URL
outside the initial `seen_urls` set. -/
theorem dedupVideos_url_not_seen :
    ∀ (vs : List Record) (seen : List JVal) (r : Record),
      r ∈ dedupVideos vs seen → jTruthy (urlOfVideo r) → urlOfVideo r ∉ seen := by
  intro vs
  induction vs with
  | nil => intro seen r hr; simp [dedupVideos] at hr
  | cons video rest ih =>
    intro seen r hr htr
    by_cases h1 : jTruthy (urlOfVideo video) ∧ urlOfVideo video ∉ seen
    · rw [dedupVideos, if_pos h1] at hr
      rcases List.mem_cons.mp hr with hEq | hMem
      · subst hEq; exact h1.2
      · have := ih (urlOfVideo video :: seen) r hMem htr
        exact fun hc => this (List.mem_cons_of_mem _ hc)
    · rw [dedupVideos, if_neg h1] at hr
      by_cases h2 : ¬ jTruthy (urlOfVideo video)
      · rw [if_pos h2] at hr
        rcases List.mem_cons.mp hr with hEq | hMem
        · subst hEq; exact absurd htr h2
        · exact ih seen r hMem htr
      · rw [if_neg h2] at hr
        exact ih seen r hr htr

theorem dedupVideos_pairwise :
    ∀ (vs : List Record) (seen : List JVal),
      (dedupVideos vs seen).Pairwise distinctTruthyUrls := by
  intro vs
  induction vs with
  | nil => intro seen; simp [dedupVideos]
  | cons video rest ih =>
    intro seen
    by_cases h1 : jTruthy (urlOfVideo video) ∧ urlOfVideo video ∉ seen
    · rw [dedupVideos, if_pos h1]
      refine List.Pairwise.cons ?_ (ih _)
      intro b hb _ htb
      have hnb := dedupVideos_url_not_seen rest (urlOfVideo video :: seen) b hb htb
      intro hc
      exact hnb (hc ▸ List.mem_cons_self _ _)
    · rw [dedupVideos, if_neg h1]
      by_cases h2 : ¬ jTruthy (urlOfVideo video)
      · rw [if_pos h2]
        refine List.Pairwise.cons ?_ (ih _)
        intro b _ hta _
        exact absurd hta h2
      · rw [if_neg h2]
        exact ih _

/-- Records with a falsy (`None`/empty) URL are all retained, in order. -/
theorem dedupVideos_keeps_falsy :
    ∀ (vs : List Record) (seen : List JVal),
      (dedupVideos vs seen).filter (fun r => ! jTruthy (urlOfVideo r)) =
        vs.filter (fun r => ! jTruthy (urlOfVideo r)) := by
  intro vs
  induction vs with
  | nil => intro seen; rfl
  | cons video rest ih =>
    intro seen
    by_cases h1 : jTruthy (urlOfVideo video) ∧ urlOfVideo video ∉ seen
    · rw [dedupVideos, if_pos h1]
      simp only [List.filter_cons, h1.1, Bool.not_true, Bool.false_eq_true, if_false]
      exact ih _
    · rw [dedupVideos, if_neg h1]
      by_cases h2 : ¬ jTruthy (urlOfVideo video)
      · rw [if_pos h2]
        have hF : jTruthy (urlOfVideo video) = false := by
          revert h2; cases jTruthy (urlOfVideo video) <;> simp
        simp only [List.filter_cons, hF, Bool.not_false, if_true]
        rw [ih seen]
      · rw [if_neg h2]
        have hT : jTruthy (urlOfVideo video) = true := by
          revert h2; cases jTruthy (urlOfVideo video) <;> simp
        rw [List.filter_cons]
        simp only [hT, Bool.not_true, Bool.false_eq_true, if_false]
        exact ih _

/-- The output of the dedup pass is an order-preserving subselection of
its input. -/
theorem dedupVideos_sublist :
    ∀ (vs : List Record) (seen : List JVal), (dedupVideos vs seen).Sublist vs := by
  intro vs
  induction vs with
  | nil => intro seen; simp [dedupVideos]
  | cons video rest ih =>
    intro seen
    by_cases h1 : jTruthy (urlOfVideo video) ∧ urlOfVideo video ∉ seen
    · rw [dedupVideos, if_pos h1]
      exact List.Sublist.cons₂ _ (ih _)
    · rw [dedupVideos, if_neg h1]
      by_cases h2 : ¬ jTruthy (urlOfVideo video)
      · rw [if_pos h2]
        exact List.Sublist.cons₂ _ (ih _)
      · rw [if_neg h2]
        exact List.Sublist.cons _ (ih _)

/-- C1 counterexample: two records carrying the same synthesized
placeholder URL (`placeholder_video_<id>`, exactly the token format the
interaction loop builds for items without a recoverable URL) ARE
treated as colliding duplicates by the dedup pass of
`save_videos_data`: the second one is dropped.  This refutes the claim
that entries with placeholder URLs are never treated as colliding
duplicates of each other. -/
theorem claim_C1_counterexample :
    dedupVideos
        [[("video_url", JVal.str "placeholder_video_7"), ("prompt", JVal.str "a")],
         [("video_url", JVal.str "placeholder_video_7"), ("prompt", JVal.str "b")]] []
      = [[("video_url", JVal.str "placeholder_video_7"), ("prompt", JVal.str "a")]] ∧
    "placeholder_video_7".data.take 12 = "placeholder_".data := by
  constructor
  · rfl
  · decide

/-- C1 (amended): after the final deduplication pass of
`save_videos_data`, truthy (non-empty) `media_url` values — placeholder
tokens included — are pairwise distinct, while entries with an empty or
missing URL are all retained and never treated as colliding; in
particular Scenario E `[u1, u1, "", ""]` yields exactly 3 records (one
`u1`, both empty-URL entries), in input order. -/
theorem claim_C1_dedup_amended :
    (∀ videos_data : List Record,
      (dedupVideos videos_data []).Pairwise distinctTruthyUrls) ∧
    (∀ videos_data : List Record,
      (dedupVideos videos_data []).filter (fun r => ! jTruthy (urlOfVideo r)) =
        videos_data.filter (fun r => ! jTruthy (urlOfVideo r))) ∧
    (∀ videos_data : List Record,
      (dedupVideos videos_data []).Sublist videos_data) ∧
    dedupVideos
        [[("video_url", JVal.str "u1")], [("video_url", JVal.str "u1")],
         [("video_url", JVal.str "")], [("video_url", JVal.str "")]] []
      = [[("video_url", JVal.str "u1")],
         [("video_url", JVal.str "")], [("video_url", JVal.str "")]] := by
  refine ⟨fun v => dedupVideos_pairwise v [], fun v => dedupVideos_keeps_falsy v [],
    fun v => dedupVideos_sublist v [], ?_⟩
  rfl

/-- Closed instance of `claim_C1_dedup_amended` at the Scenario E input:
the deduplicated output is pairwise-distinct on truthy URLs and keeps
both empty-URL records. -/
theorem claim_C1_dedup_amended_witness :
    (dedupVideos
        [[("video_url", JVal.str "u1")], [("video_url", JVal.str "u1")],
         [("video_url", JVal.str "")], [("video_url", JVal.str "")]] []).Pairwise
      distinctTruthyUrls :=
  claim_C1_dedup_amended.1
    [[("video_url", JVal.str "u1")], [("video_url", JVal.str "u1")],
     [("video_url", JVal.str "")], [("video_url", JVal.str "")]]

/-- C3: the subsection classification returns `missing` when the record
file does not exist, `invalid` when it is unparsable or not a list,
`empty` for 0 records, `single_item` for 1 or 2 records, and `populated`
for more than 2 records; `populated` is the only status excluded from
the worklist, and `invalid` is included just like `missing`. -/
theorem claim_C3_classification_boundary :
    HF.AS.check_videos_json HF.AS.VideosFile.absent = (HF.AS.Status.missing, 0) ∧
    HF.AS.check_videos_json HF.AS.VideosFile.unparsable = (HF.AS.Status.invalid, 0) ∧
    HF.AS.check_videos_json HF.AS.VideosFile.notAList = (HF.AS.Status.invalid, 0) ∧
    HF.AS.check_videos_json (HF.AS.VideosFile.listOf 0) = (HF.AS.Status.empty, 0) ∧
    HF.AS.check_videos_json (HF.AS.VideosFile.listOf 1) = (HF.AS.Status.single_item, 1) ∧
    HF.AS.check_videos_json (HF.AS.VideosFile.listOf 2) = (HF.AS.Status.single_item, 2) ∧
    (∀ n : Nat, HF.AS.check_videos_json (HF.AS.VideosFile.listOf (n + 3)) =
      (HF.AS.Status.populated, n + 3)) ∧
    (∀ s : HF.AS.Status, HF.AS.needsScrape s = true ↔ s ≠ HF.AS.Status.populated) ∧
    HF.AS.needsScrape HF.AS.Status.invalid = HF.AS.needsScrape HF.AS.Status.missing := by
  refine ⟨rfl, rfl, rfl, rfl, rfl, rfl, ?_, ?_, rfl⟩
  · intro n
    show (if n + 3 = 0 then (HF.AS.Status.empty, 0)
      else if n + 3 ≤ 2 then (HF.AS.Status.single_item, n + 3)
      else (HF.AS.Status.populated, n + 3)) = (HF.AS.Status.populated, n + 3)
    rw [if_neg (by omega), if_neg (by omega)]
  · intro s
    cases s <;> simp [HF.AS.needsScrape]

/-! ### Claim C6 — the retry loop makes at most 3 attempts -/

theorem retryLoopFor_count_le (att : Nat → Option SSExtract) (reclickOk : Nat → Bool)
    (existing : List JVal) :
    ∀ l : List Nat, (retryLoopFor att reclickOk existing l).2 ≤ l.length := by
  intro l
  induction l with
  | nil => simp [retryLoopFor]
  | cons retry rest ih =>
    rw [retryLoopFor]
    split
    · simp
    · simpa using Nat.succ_le_succ ih

theorem retryLoopFor_count_pos (att : Nat → Option SSExtract) (reclickOk : Nat → Bool)
    (existing : List JVal) (retry : Nat) (rest : List Nat) :
    1 ≤ (retryLoopFor att reclickOk existing (retry :: rest)).2 := by
  rw [retryLoopFor]
  split
  · simp
  · simp

theorem isRetryLoopFor_count_le (att : Nat → ISExtract) (reclickOk : Nat → Bool)
    (existing : List JVal) :
    ∀ l : List Nat, (IS.retryLoopFor att reclickOk existing l).2 ≤ l.length := by
  intro l
  induction l with
  | nil => simp [IS.retryLoopFor]
  | cons retry rest ih =>
    rw [IS.retryLoopFor]
    repeat' split
    all_goals (try simp)
    all_goals omega

/-- C6: the `for retry in range(3)` retry-for-uniqueness loop of
`scrape_single_subcategory` (simple_scraper.py lines 309-335 and the
identical loop of range_scraper.py lines 584-610, plus the image
variant) performs between 1 and 3 extraction attempts and then
terminates, whatever the extraction outcomes, duplicate status and
re-click outcomes are. -/
theorem claim_C6_retry_termination :
    (∀ (att : Nat → Option SSExtract) (reclickOk : Nat → Bool) (existing : List JVal),
      1 ≤ (extractRetryLoop att reclickOk existing).2 ∧
        (extractRetryLoop att reclickOk existing).2 ≤ 3) ∧
    (∀ (att : Nat → ISExtract) (reclickOk : Nat → Bool) (existing : List JVal),
      (IS.extractRetryLoop att reclickOk existing).2 ≤ 3) := by
  constructor
  · intro att reclickOk existing
    constructor
    · exact retryLoopFor_count_pos att reclickOk existing 0 [1, 2]
    · simpa using retryLoopFor_count_le att reclickOk existing (List.range 3)
  · intro att reclickOk existing
    simpa using isRetryLoopFor_count_le att reclickOk existing (List.range 3)

/-! ### Claim C2 — one record per opened item -/

theorem mainPath_length (it : ItemO) (i : Nat) (acc : List Record) :
    (SS.mainPath it i acc).length =
      acc.length + (if it.clickRegular || it.clickJS || it.clickAC then 1 else 0) := by
  rw [SS.mainPath]
  by_cases hc : (it.clickRegular || it.clickJS || it.clickAC : Bool)
  · simp only [hc, if_true]
    rw [if_neg (by simp [hc])]
    split <;> try split
    all_goals simp
  · have hc2 : (it.clickRegular || it.clickJS || it.clickAC) = false := by
      revert hc; cases h : (it.clickRegular || it.clickJS || it.clickAC) <;> simp
    simp only [hc2]
    rw [if_pos (by simp [hc2])]
    simp

theorem processOne_length (it : ItemO) (i : Nat) (acc : List Record) :
    (SS.processOne it i acc).length =
      acc.length + (if SS.opened it then 1 else 0) := by
  rw [SS.processOne, SS.opened]
  by_cases hl : it.hasLink
  · rw [if_neg (by simp [hl])]
    split
    · by_cases hc : (it.clickRegular || it.clickJS : Bool)
      · rw [if_pos hc]
        have : (it.clickRegular || it.clickJS || it.clickAC) = true := by
          revert hc
          cases it.clickRegular <;> cases it.clickJS <;> simp
        simp [hl, this]
      · have hc2 : (it.clickRegular || it.clickJS) = false := by
          revert hc; cases h : (it.clickRegular || it.clickJS) <;> simp
        rw [hc2]
        simp only [Bool.false_eq_true, if_false]
        rw [mainPath_length]
        have hca : (it.clickRegular || it.clickJS || it.clickAC) = it.clickAC := by
          rw [hc2]; simp
        rw [hca, hl]
        simp
    · rw [mainPath_length]
      simp [hl]
  · have hl2 : it.hasLink = false := by
      revert hl; cases h : it.hasLink <;> simp
    rw [if_pos (by simp [hl2])]
    simp [hl2]

theorem processFiguresGo_length :
    ∀ (items : List ItemO) (i : Nat) (acc : List Record),
      (SS.processFiguresGo items i acc).length =
        acc.length + items.countP (fun it => SS.opened it) := by
  intro items
  induction items with
  | nil => intro i acc; simp [SS.processFiguresGo]
  | cons it rest ih =>
    intro i acc
    rw [SS.processFiguresGo, ih, processOne_length, List.countP_cons]
    by_cases h : SS.opened it <;> simp [h] <;> omega

theorem isMainPath_length (it : ISItemO) (i : Nat) (acc : List Record) :
    (IS.mainPath it i acc).length =
      acc.length + (if it.clickRegular || it.clickJS || it.clickAC then 1 else 0) := by
  rw [IS.mainPath]
  by_cases hc : (it.clickRegular || it.clickJS || it.clickAC : Bool)
  · simp only [hc, if_true]
    rw [if_neg (by simp [hc])]
    split
    all_goals simp
  · have hc2 : (it.clickRegular || it.clickJS || it.clickAC) = false := by
      revert hc; cases h : (it.clickRegular || it.clickJS || it.clickAC) <;> simp
    simp only [hc2]
    rw [if_pos (by simp [hc2])]
    simp

theorem isProcessOne_length (it : ISItemO) (i actual_index : Nat) (acc : List Record) :
    (IS.processOne it i actual_index acc).length =
      acc.length + (if IS.opened it then 1 else 0) := by
  rw [IS.processOne, IS.opened]
  split
  · by_cases hc : (it.clickRegular || it.clickJS : Bool)
    · rw [if_pos hc]
      have : (it.clickRegular || it.clickJS || it.clickAC) = true := by
        revert hc
        cases it.clickRegular <;> cases it.clickJS <;> simp
      simp [this]
    · have hc2 : (it.clickRegular || it.clickJS) = false := by
        revert hc; cases h : (it.clickRegular || it.clickJS) <;> simp
      rw [hc2]
      simp only [Bool.false_eq_true, if_false]
      rw [isMainPath_length]
      have hca : (it.clickRegular || it.clickJS || it.clickAC) = it.clickAC := by
        rw [hc2]; simp
      rw [hca]
      simp
  · rw [isMainPath_length]

theorem isProcessFiguresGo_length :
    ∀ (items : List ISItemO) (total i : Nat) (acc : List Record),
      (IS.processFiguresGo total items i acc).length =
        acc.length + items.countP (fun it => IS.opened it) := by
  intro items
  induction items with
  | nil => intro total i acc; simp [IS.processFiguresGo]
  | cons it rest ih =>
    intro total i acc
    rw [IS.processFiguresGo, ih, isProcessOne_length, List.countP_cons]
    by_cases h : IS.opened it <;> simp [h] <;> omega

/-- C2: whenever every enumerated item is successfully opened (a
clickable target exists and some click mechanism succeeds), the
interaction cycle appends exactly one record per item — real or
placeholder — so the final record count equals the number of items, in
both the simple_scraper and the image_scraper variants of
`scrape_single_subcategory`. -/
theorem claim_C2_cycle_completeness :
    (∀ figures : List ItemO, (∀ it ∈ figures, SS.opened it = true) →
      (SS.processFigures figures).length = figures.length) ∧
    (∀ figures : List ISItemO, (∀ it ∈ figures, IS.opened it = true) →
      (IS.processFigures figures).length = figures.length) := by
  constructor
  · intro figures hall
    rw [SS.processFigures, processFiguresGo_length]
    simp only [List.length_nil, Nat.zero_add]
    exact List.countP_eq_length.mpr (fun it hm => by simpa using hall it hm)
  · intro figures hall
    rw [IS.processFigures, isProcessFiguresGo_length]
    simp only [List.length_nil, Nat.zero_add]
    rw [List.countP_eq_length.mpr (fun it hm => by
      simpa using hall it (List.mem_reverse.mp hm))]
    exact figures.length_reverse

/-- Closed instance of `claim_C2_cycle_completeness`: a two-item run in
which every item opens yields exactly two records. -/
theorem claim_C2_cycle_completeness_witness :
    (SS.processFigures
      [{ figure_url := none, figure_id := none, hasLink := true,
         clickRegular := true, clickJS := false, clickAC := false,
         att := fun _ => none, reclickOk := fun _ => true },
       { figure_url := some "http://a", figure_id := some "x", hasLink := true,
         clickRegular := false, clickJS := true, clickAC := false,
         att := fun _ => some { video_url := some "http://b", prompt := some "p" },
         reclickOk := fun _ => true }]).length = 2 :=
  claim_C2_cycle_completeness.1 _ (by
    intro it hit
    rcases List.mem_cons.mp hit with h | h
    · subst h; rfl
    · rcases List.mem_cons.mp h with h2 | h2
      · subst h2; rfl
      · simp at h2)

/-! ### Claim C5 — scroll loop termination -/

theorem rsScrollGo_le (hs : Nat → Nat) :
    ∀ (rem last i : Nat), RS.scrollGo hs last i rem ≤ rem := by
  intro rem
  induction rem with
  | zero => intro last i; simp [RS.scrollGo]
  | succ rem ih =>
    intro last i
    rw [RS.scrollGo]
    split
    · omega
    · have := ih (hs i) (i + 1)
      omega

theorem isScrollGo_spec (hs : Nat → Nat) :
    ∀ (rem last i consec : Nat),
      (IS.scrollGo hs last i consec rem).1 ≤ rem ∧
        ((IS.scrollGo hs last i consec rem).1 = rem ∨
          3 ≤ (IS.scrollGo hs last i consec rem).2) := by
  intro rem
  induction rem with
  | zero => intro last i consec; simp [IS.scrollGo]
  | succ rem ih =>
    intro last i consec
    rw [IS.scrollGo]
    by_cases hc : consec < 3
    · rw [if_pos hc]
      have := ih (hs i) (i + 1) (if hs i = last then consec + 1 else 0)
      constructor
      · simpa using Nat.succ_le_succ this.1
      · rcases this.2 with h | h
        · left; simpa using h
        · right; simpa using h
    · rw [if_neg hc]
      exact ⟨Nat.zero_le _, Or.inr (by omega)⟩

theorem ssScrollGo_some (hs : Nat → Nat) :
    ∀ (fuel last i n : Nat), SS.scrollGo hs last i fuel = some n →
      (n = i + 1 ∧ hs i = last) ∨ (i + 2 ≤ n ∧ hs (n - 1) = hs (n - 2)) := by
  intro fuel
  induction fuel with
  | zero => intro last i n h; simp [SS.scrollGo] at h
  | succ fuel ih =>
    intro last i n h
    rw [SS.scrollGo] at h
    by_cases hc : hs i = last
    · rw [if_pos hc] at h
      simp only [Option.some.injEq] at h
      left
      exact ⟨h.symm, hc⟩
    · rw [if_neg hc] at h
      rcases ih (hs i) (i + 1) n h with ⟨hn, hv⟩ | ⟨hn, hv⟩
      · right
        refine ⟨by omega, ?_⟩
        rw [hn]
        simpa using hv
      · right
        exact ⟨by omega, hv⟩

/-- C5 counterexample: the simple_scraper variant of
`scroll_to_load_all_content` has no attempt cap — on a page whose
height strictly grows on every measurement it performs 16 scroll
attempts without terminating (refuting the 15/10 hard cap); and the
range_scraper ("fast") variant stops after a **single** unchanged
measurement, not 3 consecutive ones. -/
theorem claim_C5_counterexample :
    SS.scroll_to_load_all_content 0 (fun k => k + 1) 16 = none ∧
    RS.scroll_to_load_all_content 5 (fun _ => 5) = 1 := by
  constructor
  · rfl
  · rfl

/-- C5 (amended): the thorough variant (image_scraper) terminates
within 15 scroll attempts, stopping early only once 3 consecutive
unchanged measurements accumulate; the fast variant (range_scraper)
terminates within 10 attempts, stopping already at the **first**
unchanged measurement; the simple_scraper variant has no cap and exits
only when a measurement repeats the previous height. -/
theorem claim_C5_scroll_amended :
    (∀ (h0 : Nat) (hs : Nat → Nat), RS.scroll_to_load_all_content h0 hs ≤ 10) ∧
    (∀ (h0 : Nat) (hs : Nat → Nat), hs 0 = h0 →
      RS.scroll_to_load_all_content h0 hs = 1) ∧
    (∀ (h0 : Nat) (hs : Nat → Nat),
      (IS.scroll_to_load_all_content h0 hs).1 ≤ 15 ∧
        ((IS.scroll_to_load_all_content h0 hs).1 = 15 ∨
          3 ≤ (IS.scroll_to_load_all_content h0 hs).2)) ∧
    (∀ (fuel h0 n : Nat) (hs : Nat → Nat),
      SS.scroll_to_load_all_content h0 hs fuel = some n →
        (n = 1 ∧ hs 0 = h0) ∨ (2 ≤ n ∧ hs (n - 1) = hs (n - 2))) := by
  refine ⟨?_, ?_, ?_, ?_⟩
  · intro h0 hs
    exact rsScrollGo_le hs 10 h0 0
  · intro h0 hs h
    rw [RS.scroll_to_load_all_content, RS.scrollGo, if_pos h]
  · intro h0 hs
    exact isScrollGo_spec hs 15 h0 0 0
  · intro fuel h0 n hs h
    simpa using ssScrollGo_some hs fuel h0 0 n h

/-- Closed instance of `claim_C5_scroll_amended`: with a constant
height trace the fast variant stops after exactly one attempt. -/
theorem claim_C5_scroll_amended_witness :
    RS.scroll_to_load_all_content 7 (fun _ => 7) = 1 :=
  claim_C5_scroll_amended.2.1 7 (fun _ => 7) rfl

/-! ### Claim C4 — the catalog count write-back -/

theorem lookupKey_setKey_self :
    ∀ (r : Record) (k : String) (v : JVal), lookupKey (MU.setKey r k v) k = some v := by
  intro r k v
  induction r with
  | nil => simp [MU.setKey, lookupKey]
  | cons p rest ih =>
    rw [MU.setKey]
    by_cases h : p.1 = k
    · rw [if_pos h]
      simp [lookupKey, List.find?]
    · rw [if_neg h]
      rw [lookupKey, List.find?_cons_of_neg _ (by simpa using h)]
      exact ih

theorem lookupKey_setKey_other :
    ∀ (r : Record) (k : String) (v : JVal) (k2 : String), k2 ≠ k →
      lookupKey (MU.setKey r k v) k2 = lookupKey r k2 := by
  intro r k v k2 hne
  induction r with
  | nil =>
    simp [MU.setKey, lookupKey, List.find?, Ne.symm hne]
  | cons p rest ih =>
    rw [MU.setKey]
    by_cases h : p.1 = k
    · rw [if_pos h]
      rw [lookupKey, List.find?_cons_of_neg _ (by simpa using Ne.symm hne)]
      rw [lookupKey, List.find?_cons_of_neg _ (by simp [h, Ne.symm hne])]
    · rw [if_neg h]
      by_cases h2 : p.1 = k2
      · rw [lookupKey, List.find?_cons_of_pos _ (by simpa using h2)]
        rw [lookupKey, List.find?_cons_of_pos _ (by simpa using h2)]
      · rw [lookupKey, List.find?_cons_of_neg _ (by simpa using h2)]
        rw [lookupKey, List.find?_cons_of_neg _ (by simpa using h2)]
        exact ih

/-- C4 counterexample: a catalog with subsections `A` (count 5) and `B`
(count 5) updated with an analysis for `A` alone (count 7).  The write
does not leave the sibling entry `B` unchanged: its `video_count` is
overwritten with the default `0`, destroying the previously recorded
count. -/
theorem claim_C4_counterexample :
    MU.update_metadata_json [{ subcategory_path := "A", video_count := 7 }]
        [("category_name", MU.MetaVal.scalar (JVal.str "C")),
         ("sub_categories", MU.MetaVal.subList
           [[("name", JVal.str "A"), ("link", JVal.str "la"), ("video_count", JVal.num 5)],
            [("name", JVal.str "B"), ("link", JVal.str "lb"), ("video_count", JVal.num 5)]])]
      = some
        [("category_name", MU.MetaVal.scalar (JVal.str "C")),
         ("sub_categories", MU.MetaVal.subList
           [[("name", JVal.str "A"), ("link", JVal.str "la"), ("video_count", JVal.num 7)],
            [("name", JVal.str "B"), ("link", JVal.str "lb"), ("video_count", JVal.num 0)]])] ∧
    lookupKey [("name", JVal.str "B"), ("link", JVal.str "lb"),
        ("video_count", JVal.num 5)] "video_count" = some (JVal.num 5) := by
  constructor
  · rfl
  · rfl

/-- C4 (amended): the update writes only `video_count` fields — every
other field of every subsection entry and every other top-level
metadata field is preserved, and the key order is untouched — but it
writes that field on **every** entry: the matched analysis count where
one matches, and `0` (overwriting any previous value) where none does. -/
theorem claim_C4_update_amended :
    (∀ (analyses : List MU.Analysis) (metadata m2 : List (String × MU.MetaVal)),
      MU.update_metadata_json analyses metadata = some m2 →
        m2.map Prod.fst = metadata.map Prod.fst ∧
        (∀ p ∈ metadata, p.1 ≠ "sub_categories" → p ∈ m2)) ∧
    (∀ (m : List (String × MU.Analysis)) (sub : Record) (name k : String),
      k ≠ "video_count" →
        lookupKey (MU.updateOne m sub name) k = lookupKey sub k) ∧
    (∀ (m : List (String × MU.Analysis)) (sub : Record) (name : String),
      (∃ a, MU.findMatching m name = some a ∧
        lookupKey (MU.updateOne m sub name) "video_count" =
          some (JVal.num (Int.ofNat a.video_count))) ∨
      (MU.findMatching m name = none ∧
        lookupKey (MU.updateOne m sub name) "video_count" = some (JVal.num 0))) := by
  refine ⟨?_, ?_, ?_⟩
  · intro analyses metadata m2 h
    rw [MU.update_metadata_json] at h
    split at h
    · exact absurd h (by simp)
    · exact absurd h (by simp)
    · split at h
      · exact absurd h (by simp)
      · simp only [Option.some.injEq] at h
        subst h
        constructor
        · rw [List.map_map]
          congr 1
          funext p
          simp only [Function.comp]
          split <;> rfl
        · intro p hp hne
          simp only [List.mem_map]
          exact ⟨p, hp, by rw [if_neg hne]⟩
  · intro m sub name k hk
    rw [MU.updateOne]
    split
    · exact lookupKey_setKey_other sub "video_count" _ k hk
    · exact lookupKey_setKey_other sub "video_count" _ k hk
  · intro m sub name
    rcases h : MU.findMatching m name with _ | a
    · right
      refine ⟨rfl, ?_⟩
      rw [MU.updateOne, h]
      exact lookupKey_setKey_self sub "video_count" _
    · left
      refine ⟨a, rfl, ?_⟩
      rw [MU.updateOne, h]
      exact lookupKey_setKey_self sub "video_count" _

/-- Closed instance of `claim_C4_update_amended`: updating an entry
leaves its `link` field untouched. -/
theorem claim_C4_update_amended_witness :
    lookupKey (MU.updateOne (MU.buildVideoDataMap
        [{ subcategory_path := "A", video_count := 7 }])
        [("name", JVal.str "B"), ("link", JVal.str "lb"),
         ("video_count", JVal.num 5)] "B") "link" =
      lookupKey [("name", JVal.str "B"), ("link", JVal.str "lb"),
        ("video_count", JVal.num 5)] "link" :=
  claim_C4_update_amended.2.1 _ _ "B" "link" (by decide)

/-! ### Claim C10 — an empty record set is never persisted -/

/-- C10: with an empty accumulated record list, all three record-store
save functions return before creating a directory or opening an output
file (modelled as producing no write effects at all), so previously
persisted files for the subsection are untouched. -/
theorem claim_C10_empty_save_no_write :
    (∀ category_name : String, save_videos_data [] category_name = none) ∧
    (∀ category_name timestamp : String,
      save_images_data [] category_name timestamp = none) :=
  ⟨fun _ => rfl, fun _ _ => rfl⟩

/-! ### Claim C7 — the persisted file pair -/

theorem stripProvenance_no_provenance (videos : List Record) :
    ∀ r ∈ stripProvenance videos,
      "figure_id" ∉ keysOf r ∧ "figure_index" ∉ keysOf r := by
  intro r hr
  rcases List.mem_map.mp hr with ⟨video, _, hEq⟩
  subst hEq
  constructor <;> intro hk <;>
    · rcases List.mem_map.mp hk with ⟨q, hq, hq1⟩
      have hfil := (List.mem_filter.mp hq).2
      rw [hq1] at hfil
      simp at hfil

theorem csvFieldnames_sorted (videos : List Record) :
    (csvFieldnames videos).Sorted (· ≤ ·) :=
  List.sorted_insertionSort _ _

theorem csvFieldnames_nodup (videos : List Record) :
    (csvFieldnames videos).Nodup :=
  ((videos.flatMap keysOf).nodup_dedup).perm
    (List.perm_insertionSort (· ≤ ·) _).symm

theorem mem_csvFieldnames (videos : List Record) (k : String) :
    k ∈ csvFieldnames videos ↔ ∃ r ∈ videos, k ∈ keysOf r := by
  rw [csvFieldnames]
  rw [List.Perm.mem_iff (List.perm_insertionSort (· ≤ ·) _)]
  rw [List.mem_dedup, List.mem_flatMap]

/-- C7 counterexample: the image variant of the record store write
(`save_images_data`) does not strip provenance — the persisted JSON
keeps `figure_index`/`figure_id` on the record, wraps the records in an
object instead of a flat array, and uses a fixed four-column CSV header
rather than the sorted union of present field names. -/
theorem claim_C7_counterexample :
    (save_images_data
        [[("image_url", JVal.str "http://x"), ("prompt", JVal.str "p"),
          ("figure_index", JVal.num 1), ("figure_id", JVal.null)]]
        "cat" "t").map (fun out => out.jsonOut.images)
      = some [[("image_url", JVal.str "http://x"), ("prompt", JVal.str "p"),
          ("figure_index", JVal.num 1), ("figure_id", JVal.null)]] ∧
    "figure_index" ∈ keysOf
        [("image_url", JVal.str "http://x"), ("prompt", JVal.str "p"),
         ("figure_index", JVal.num 1), ("figure_id", JVal.null)] := by
  constructor
  · rfl
  · decide

/-- C7 (amended): the video-record saves (`save_videos_data` of
simple_scraper and range_scraper) write a flat array of records with
`figure_id`/`figure_index` stripped from every record and a CSV with
the same rows under a sorted, duplicate-free header holding exactly the
field names present across the records; the image variant
(`save_images_data`) instead writes the records unchanged inside an
object wrapper with a fixed four-column CSV header. -/
theorem claim_C7_record_store_amended :
    (∀ (videos_data : List Record) (category_name : String) (out : VideoSaveOut),
      save_videos_data videos_data category_name = some out →
        (∀ r ∈ out.jsonRecords,
          "figure_id" ∉ keysOf r ∧ "figure_index" ∉ keysOf r) ∧
        out.csvRows = out.jsonRecords ∧
        out.csvHeader.Sorted (· ≤ ·) ∧
        out.csvHeader.Nodup ∧
        (∀ k, k ∈ out.csvHeader ↔ ∃ r ∈ out.jsonRecords, k ∈ keysOf r)) ∧
    (∀ (images_data : List Record) (category_name timestamp : String)
        (out : ImageSaveOut),
      save_images_data images_data category_name timestamp = some out →
        out.jsonOut.images = images_data ∧
        out.jsonOut.total_images = images_data.length ∧
        out.csvHeader = ["image_url", "prompt", "figure_index", "figure_id"]) := by
  constructor
  · intro videos_data category_name out h
    rw [save_videos_data] at h
    split at h
    · exact absurd h (by simp)
    · simp only [Option.some.injEq] at h
      subst h
      simp only
      refine ⟨stripProvenance_no_provenance _, ?_, ?_, ?_, ?_⟩
      · split <;> rename_i hemp
        · rw [List.isEmpty_iff] at hemp
          exact hemp.symm
        · rfl
      · split
        · simp
        · exact csvFieldnames_sorted _
      · split
        · simp
        · exact csvFieldnames_nodup _
      · intro k
        split <;> rename_i hemp
        · rw [List.isEmpty_iff] at hemp
          simp [hemp]
        · exact mem_csvFieldnames _ k
  · intro images_data category_name timestamp out h
    rw [save_images_data] at h
    split at h
    · exact absurd h (by simp)
    · simp only [Option.some.injEq] at h
      subst h
      exact ⟨rfl, rfl, rfl⟩

/-- Closed instance of `claim_C7_record_store_amended`: a concrete save
with provenance fields strips them from the persisted record. -/
theorem claim_C7_record_store_amended_witness :
    "figure_id" ∉ keysOf [("video_url", JVal.str "u")] ∧
    "figure_index" ∉ keysOf [("video_url", JVal.str "u")] :=
  (claim_C7_record_store_amended.1
      [[("video_url", JVal.str "u"), ("figure_id", JVal.str "g"),
        ("figure_index", JVal.num 1)]]
      "A_B"
      { folder := "A/B"
        jsonRecords := [[("video_url", JVal.str "u")]]
        csvHeader := ["video_url"]
        csvRows := [[("video_url", JVal.str "u")]] }
      rfl).1 [("video_url", JVal.str "u")] (by decide)

/-! ### Claim C9 — the detail extractor never raises -/

/-- C9 counterexample: when the modal wait raises, the simple_scraper
variant of `extract_prompt_from_popup` returns Python `None` — it does
not raise, but it also does not return the sentinel
`{media_url, prompt}` pair the claim promises. -/
theorem claim_C9_counterexample :
    SS.extract_prompt_from_popup { modal := none } = Except.ok none := rfl

/-- C9 (amended): no variant of `extract_prompt_from_popup` ever
propagates an error; on total failure (popup probe and body fallback
both raising) the range_scraper and image_scraper variants return the
sentinel dictionary `{url: None, prompt: "Error extracting prompt"}`,
while the simple_scraper variant returns `None` instead of a sentinel
pair (its caller substitutes the sentinels). -/
theorem claim_C9_extractor_amended :
    (∀ p : SS.Page, ∃ r, SS.extract_prompt_from_popup p = Except.ok r) ∧
    (∀ p : RS.Page, ∃ r, RS.extract_prompt_from_popup p = Except.ok r) ∧
    (∀ p : IS.Page, ∃ r, IS.extract_prompt_from_popup p = Except.ok r) ∧
    (∀ p : RS.Page, p.popupSel = none → p.bodyFind = none →
      RS.extract_prompt_from_popup p =
        Except.ok { video_url := none, prompt := "Error extracting prompt" }) ∧
    (∀ p : IS.Page, p.popupSel = none → p.bodyFind = none →
      IS.extract_prompt_from_popup p =
        Except.ok { image_url := none, prompt := "Error extracting prompt" }) ∧
    (∀ p : SS.Page, p.modal = none →
      SS.extract_prompt_from_popup p = Except.ok none) := by
  refine ⟨?_, ?_, ?_, ?_, ?_, ?_⟩
  · intro p
    rw [SS.extract_prompt_from_popup]
    rcases h : SS.extractBody p with e | r
    · exact ⟨none, rfl⟩
    · exact ⟨some r, rfl⟩
  · intro p
    rw [RS.extract_prompt_from_popup]
    rcases h : RS.extractBody p with e | r
    · exact ⟨_, rfl⟩
    · exact ⟨r, rfl⟩
  · intro p
    rw [IS.extract_prompt_from_popup]
    rcases h : IS.extractBody p with e | r
    · exact ⟨_, rfl⟩
    · exact ⟨r, rfl⟩
  · intro p h1 h2
    rw [RS.extract_prompt_from_popup, RS.extractBody, h1, h2]
  · intro p h1 h2
    rw [IS.extract_prompt_from_popup, IS.extractBody, h1, h2]
  · intro p h1
    rw [SS.extract_prompt_from_popup, SS.extractBody, h1]

/-- Closed instance of `claim_C9_extractor_amended`: the range variant
at a totally failing page yields the sentinel dictionary. -/
theorem claim_C9_extractor_amended_witness :
    RS.extract_prompt_from_popup { popupSel := none, bodyFind := none } =
      Except.ok { video_url := none, prompt := "Error extracting prompt" } :=
  claim_C9_extractor_amended.2.2.2.1 { popupSel := none, bodyFind := none } rfl rfl

/-! ### Claim C8 — report round trip -/

/-- C8 counterexample: a subcategory legitimately named
`"A (Count: 7) B"` with count 0 is written faithfully, but the
line-oriented bullet parser recovers the wrong name `"A"` with the
wrong count `7` — the lazy regex group stops at the first
`(Count: …)`-shaped fragment inside the name.  The round trip is not
faithful. -/
theorem claim_C8_counterexample :
    RS.parse_low_video_count_file (LV.save_results_to_file
        [("Cat", { total_subcategories := 3,
                   low_count_subcategories := [("A (Count: 7) B", 0)],
                   low_count_total := 1 })])
      = [("Cat", [("A", 7)])] ∧
    [("Cat", [("A", (7 : Nat))])] ≠ [("Cat", [("A (Count: 7) B", 0)])] := by
  constructor
  · rfl
  · decide

/-! #### Generic list helpers for the round-trip proof -/

theorem dropWhile_len_le (p : Char → Bool) :
    ∀ l : List Char, (l.dropWhile p).length ≤ l.length := by
  intro l
  induction l with
  | nil => simp
  | cons c t ih =>
    rw [List.dropWhile_cons]
    split
    · exact Nat.le_succ_of_le ih
    · simp

theorem dropWhile_eq_self_append (p : Char → Bool) :
    ∀ xs ys : List Char, xs ≠ [] → xs.dropWhile p = xs →
      (xs ++ ys).dropWhile p = xs ++ ys := by
  intro xs ys hne hself
  match xs with
  | [] => exact absurd rfl hne
  | c :: t =>
    have hc : p c = false := by
      by_contra hpc
      have hpc2 : p c = true := by
        revert hpc; cases p c <;> simp
      rw [List.dropWhile_cons, if_pos hpc2] at hself
      have := dropWhile_len_le p t
      rw [hself] at this
      simp at this
    rw [List.cons_append, List.dropWhile_cons, if_neg (by simp [hc])]

theorem dropWhile_all_prefix (p : Char → Bool) :
    ∀ sp x : List Char, (∀ c ∈ sp, p c) →
      (sp ++ x).dropWhile p = x.dropWhile p := by
  intro sp
  induction sp with
  | nil => intro x _; rfl
  | cons c t ih =>
    intro x hall
    rw [List.cons_append, List.dropWhile_cons,
      if_pos (by simpa using hall c (by simp))]
    exact ih x (fun d hd => hall d (by simp [hd]))

theorem dropWhile_ne_nil_of_mem (p : Char → Bool) :
    ∀ xs : List Char, ∀ c ∈ xs, ¬ p c → xs.dropWhile p ≠ [] := by
  intro xs
  induction xs with
  | nil => intro c hc; simp at hc
  | cons d t ih =>
    intro c hc hpc
    rw [List.dropWhile_cons]
    by_cases hpd : p d = true
    · rw [if_pos hpd]
      rcases List.mem_cons.mp hc with hEq | hMem
      · subst hEq
        exact absurd hpd (by simpa using hpc)
      · exact ih c hMem hpc
    · rw [if_neg hpd]
      simp

theorem dropWhile_append_of_ne_nil (p : Char → Bool) :
    ∀ xs ys : List Char, xs.dropWhile p ≠ [] →
      (xs ++ ys).dropWhile p = xs.dropWhile p ++ ys := by
  intro xs
  induction xs with
  | nil => intro ys h; simp at h
  | cons c t ih =>
    intro ys h
    rw [List.dropWhile_cons] at h
    by_cases hpc : p c = true
    · rw [if_pos hpc] at h
      rw [List.cons_append, List.dropWhile_cons, if_pos hpc,
        List.dropWhile_cons, if_pos hpc]
      exact ih ys h
    · rw [if_neg hpc] at h
      rw [List.cons_append, List.dropWhile_cons, if_neg hpc,
        List.dropWhile_cons, if_neg hpc]
      simp

theorem takeWhile_all_append (p : Char → Bool) :
    ∀ (xs : List Char) (y : Char) (ys : List Char),
      (∀ c ∈ xs, p c) → ¬ p y → (xs ++ y :: ys).takeWhile p = xs := by
  intro xs
  induction xs with
  | nil =>
    intro y ys _ hy
    rw [List.nil_append, List.takeWhile_cons,
      if_neg (by simpa using Bool.eq_false_iff.mpr hy)]
  | cons c t ih =>
    intro y ys hall hy
    rw [List.cons_append, List.takeWhile_cons,
      if_pos (by simpa using hall c (by simp))]
    rw [ih y ys (fun d hd => hall d (by simp [hd])) hy]

theorem splitChar_ne_nil (sep : Char) : ∀ l : List Char, splitChar sep l ≠ [] := by
  intro l
  cases l with
  | nil => simp [splitChar]
  | cons c rest =>
    rw [splitChar]
    split
    · simp
    · split <;> simp

theorem splitChar_append (sep : Char) :
    ∀ l rest : List Char, sep ∉ l →
      splitChar sep (l ++ sep :: rest) = l :: splitChar sep rest := by
  intro l
  induction l with
  | nil =>
    intro rest _
    rw [List.nil_append, splitChar, if_pos rfl]
  | cons c t ih =>
    intro rest hnot
    have hc : c ≠ sep := by
      intro h; exact hnot (by simp [h])
    rw [List.cons_append, splitChar, if_neg hc]
    rw [ih rest (fun h => hnot (by simp [h]))]

theorem splitChar_joinLines :
    ∀ lines : List (List Char), (∀ l ∈ lines, '\n' ∉ l) →
      splitChar '\n' (LV.joinLines lines) = lines ++ [[]] := by
  intro lines
  induction lines with
  | nil => intro _; rfl
  | cons l ls ih =>
    intro hall
    have : LV.joinLines (l :: ls) = l ++ '\n' :: LV.joinLines ls := by
      simp [LV.joinLines]
    rw [this, splitChar_append _ _ _ (hall l (by simp))]
    rw [ih (fun x hx => hall x (by simp [hx]))]
    rfl

theorem pyStripL_eq_self {l : List Char} (h : trimmedL l) : pyStripL l = l := by
  rw [pyStripL, h.1, h.2, List.reverse_reverse]

theorem pyStripL_append_of {l r : List Char}
    (hl : l.dropWhile Char.isWhitespace = l) (hlne : l ≠ [])
    (hr : r.reverse.dropWhile Char.isWhitespace = r.reverse) (hrne : r ≠ []) :
    pyStripL (l ++ r) = l ++ r := by
  rw [pyStripL, dropWhile_eq_self_append _ l r hlne hl, List.reverse_append]
  rw [dropWhile_eq_self_append _ r.reverse l.reverse (by simpa using hrne) hr]
  simp

theorem startsWithL_append_left (lit rest pat : List Char)
    (h : pat.length ≤ lit.length) :
    startsWithL (lit ++ rest) pat = startsWithL lit pat := by
  rw [startsWithL, startsWithL, List.take_append_eq_append_take,
    Nat.sub_eq_zero_of_le h, List.take_zero, List.append_nil]

theorem startsWithL_append_false (lit rest pat : List Char)
    (h : startsWithL pat lit = false) (hlen : lit.length ≤ pat.length) :
    startsWithL (lit ++ rest) pat = false := by
  by_contra hb
  have hb2 : startsWithL (lit ++ rest) pat = true := by
    revert hb; cases startsWithL (lit ++ rest) pat <;> simp
  rw [startsWithL, decide_eq_true_eq] at hb2
  have : pat.take lit.length = lit := by
    rw [← hb2, List.take_take, Nat.min_def, if_pos hlen, List.take_append_eq_append_take,
      Nat.sub_self, List.take_zero, List.append_nil, List.take_length]
  rw [startsWithL, this] at h
  simp at h

/-! #### Decimal rendering and parsing -/

theorem natToCharsGo_eq_digits :
    ∀ fuel n : Nat, n ≤ fuel → natToCharsGo fuel n = (Nat.digits 10 n).map digitChar := by
  intro fuel
  induction fuel with
  | zero =>
    intro n hn
    have : n = 0 := by omega
    subst this
    simp [natToCharsGo]
  | succ fuel ih =>
    intro n hn
    rw [natToCharsGo]
    by_cases h0 : n = 0
    · subst h0; simp
    · rw [if_neg h0]
      rw [Nat.digits_def' (by norm_num : (1:Nat) < 10) (Nat.pos_of_ne_zero h0)]
      rw [List.map_cons]
      congr 1
      have : n / 10 ≤ fuel := by
        have := Nat.div_lt_self (Nat.pos_of_ne_zero h0) (by norm_num : (1:Nat) < 10)
        omega
      exact ih (n / 10) this

theorem digitChar_mem (d : Nat) (hd : d < 10) :
    digitChar d ∈ ['0', '1', '2', '3', '4', '5', '6', '7', '8', '9'] := by
  interval_cases d <;> decide

theorem natToChars_mem (n : Nat) :
    ∀ c ∈ natToChars n, c ∈ ['0', '1', '2', '3', '4', '5', '6', '7', '8', '9'] := by
  intro c hc
  rw [natToChars] at hc
  split at hc
  · simp at hc
    simp [hc]
  · rw [natToCharsGo_eq_digits n n (le_refl n)] at hc
    rw [List.mem_reverse, List.mem_map] at hc
    rcases hc with ⟨d, hd, hEq⟩
    subst hEq
    exact digitChar_mem d (Nat.digits_lt_base (by norm_num) hd)

theorem natToChars_ne_nil (n : Nat) : natToChars n ≠ [] := by
  rw [natToChars]
  split
  · simp
  · rename_i h0
    rw [natToCharsGo_eq_digits n n (le_refl n)]
    simp [Nat.digits_ne_nil_iff_ne_zero.mpr h0]

theorem natToChars_not_ws (n : Nat) :
    ∀ c ∈ natToChars n, ¬ c.isWhitespace := by
  intro c hc
  have := natToChars_mem n c hc
  fin_cases this <;> decide

theorem natToChars_digit (n : Nat) :
    ∀ c ∈ natToChars n, c.isDigit := by
  intro c hc
  have := natToChars_mem n c hc
  fin_cases this <;> decide

theorem natToChars_no_nl (n : Nat) : '\n' ∉ natToChars n := by
  intro h
  have := natToChars_mem n '\n' h
  simp at this

theorem digitChar_val (d : Nat) (hd : d < 10) :
    (digitChar d).toNat - 48 = d := by
  interval_cases d <;> decide

theorem parseNatL_fold_digits :
    ∀ (ds : List Nat) (acc : Nat), (∀ d ∈ ds, d < 10) →
      List.foldl (fun a c => a * 10 + (c.toNat - 48)) acc ((ds.map digitChar).reverse) =
        acc * 10 ^ ds.length + Nat.ofDigits 10 ds := by
  intro ds
  induction ds with
  | nil => intro acc _; simp
  | cons d rest ih =>
    intro acc hall
    rw [List.map_cons, List.reverse_cons, List.foldl_append]
    rw [ih acc (fun x hx => hall x (by simp [hx]))]
    simp only [List.foldl_cons, List.foldl_nil]
    rw [digitChar_val d (hall d (by simp))]
    rw [Nat.ofDigits_cons, List.length_cons, pow_succ]
    ring

theorem parseNatL_natToChars (n : Nat) : parseNatL (natToChars n) = n := by
  rw [natToChars]
  by_cases h0 : n = 0
  · subst h0; simp; decide
  · rw [if_neg h0, natToCharsGo_eq_digits n n (le_refl n)]
    rw [parseNatL, parseNatL_fold_digits (Nat.digits 10 n) 0
      (fun d hd => Nat.digits_lt_base (by norm_num) hd)]
    rw [Nat.ofDigits_digits]
    simp

/-! #### `replace` helpers -/

theorem removeAllGo_no_occur (pat : List Char) :
    ∀ (fuel : Nat) (l : List Char), substrAux pat l = false →
      RS.removeAllGo pat fuel l = l := by
  intro fuel
  induction fuel with
  | zero =>
    intro l _
    cases l <;> rfl
  | succ fuel ih =>
    intro l hno
    cases l with
    | nil => rfl
    | cons c rest =>
      rw [substrAux] at hno
      simp only [Bool.or_eq_false_iff] at hno
      rw [RS.removeAllGo, if_neg (by
        intro hc
        have := hno.1
        rw [hc.1] at this
        simp at this)]
      rw [ih rest hno.2]

theorem removeAll_pat_prefix (pat rest : List Char) (hp : pat ≠ [])
    (hno : substrAux pat rest = false) :
    RS.removeAll pat (pat ++ rest) = rest := by
  match pat with
  | p0 :: pt =>
    rw [RS.removeAll]
    have hlen : ((p0 :: pt) ++ rest).length = (pt ++ rest).length + 1 := by simp
    rw [hlen]
    rw [show ((p0 :: pt) ++ rest) = p0 :: (pt ++ rest) from rfl]
    rw [RS.removeAllGo]
    rw [if_pos ⟨by
      rw [show (p0 :: (pt ++ rest)) = (p0 :: pt) ++ rest from rfl]
      rw [List.take_append_eq_append_take, Nat.sub_self, List.take_zero,
        List.append_nil, List.take_length], hp⟩]
    rw [show (p0 :: (pt ++ rest)) = (p0 :: pt) ++ rest from rfl]
    rw [List.drop_append_eq_append_drop, Nat.sub_self, List.drop_zero,
      List.drop_length, List.nil_append]
    exact removeAllGo_no_occur (p0 :: pt) _ rest hno

/-! #### Parser dict helpers -/

theorem pInsert_fresh (m : List (String × List (String × Nat))) (k : String)
    (h : ∀ p ∈ m, p.1 ≠ k) : RS.pInsert m k = m ++ [(k, [])] := by
  rw [RS.pInsert, if_neg (by
    intro hany
    rw [List.any_eq_true] at hany
    rcases hany with ⟨p, hp, hk⟩
    exact h p hp (by simpa using hk))]

theorem pAppend_fresh (m : List (String × List (String × Nat))) (k : String)
    (l : List (String × Nat)) (x : String × Nat)
    (h : ∀ p ∈ m, p.1 ≠ k) :
    RS.pAppend (m ++ [(k, l)]) k x = m ++ [(k, l ++ [x])] := by
  rw [RS.pAppend, List.map_append]
  congr 1
  · have : List.map (fun p => if p.1 = k then (p.1, p.2 ++ [x]) else p) m =
        List.map id m :=
      List.map_congr_left (fun p hp => by rw [if_neg (h p hp)]; rfl)
    rw [this, List.map_id]
  · simp

/-! #### Bullet-line regex lemmas -/

theorem head_false_of_dropWhile_self (p : Char → Bool) (c : Char) (t : List Char)
    (h : (c :: t).dropWhile p = c :: t) : p c = false := by
  by_contra hpc
  have hpc2 : p c = true := by
    revert hpc; cases p c <;> simp
  rw [List.dropWhile_cons, if_pos hpc2] at h
  have := dropWhile_len_le p t
  rw [h] at this
  simp at this

theorem dropWhile_eq_self_of_all (p : Char → Bool) :
    ∀ l : List Char, (∀ c ∈ l, p c = false) → l.dropWhile p = l := by
  intro l
  induction l with
  | nil => intro _; rfl
  | cons c t ih =>
    intro hall
    rw [List.dropWhile_cons, if_neg (by simp [hall c (by simp)])]

theorem mem_of_mem_dropWhile (p : Char → Bool) :
    ∀ (l : List Char) (x : Char), x ∈ l.dropWhile p → x ∈ l := by
  intro l
  induction l with
  | nil => intro x h; simp at h
  | cons c t ih =>
    intro x h
    rw [List.dropWhile_cons] at h
    split at h
    · exact List.mem_cons_of_mem _ (ih x h)
    · exact h

theorem startsWithL_cons_ne (c : Char) (t : List Char) (p0 : Char)
    (pt : List Char) (h : c ≠ p0) : startsWithL (c :: t) (p0 :: pt) = false := by
  rw [startsWithL, List.length_cons, List.take_succ_cons]
  simp [h]

theorem digit_not_ws (c : Char) (h : c.isDigit = true) : c.isWhitespace = false := by
  by_contra hw
  have hw2 : c.isWhitespace = true := by
    revert hw; cases c.isWhitespace <;> simp
  rw [Char.isWhitespace] at hw2
  simp only [Bool.or_eq_true, decide_eq_true_eq] at hw2
  rcases hw2 with ((h1 | h1) | h1) | h1 <;> rw [h1] at h <;> exact absurd h (by decide)

theorem dropWhile_digits_paren (ds : List Char) (hds : ds ≠ [])
    (hds_nws : ∀ c ∈ ds, Char.isWhitespace c = false) :
    (ds ++ [')']).dropWhile Char.isWhitespace = ds ++ [')'] :=
  dropWhile_eq_self_append _ ds [')'] hds (dropWhile_eq_self_of_all _ ds hds_nws)

theorem checkCountSuffix_hit (ds : List Char) (hds : ds ≠ [])
    (hdig : ∀ c ∈ ds, c.isDigit = true) :
    RS.checkCountSuffix (" (Count: ".data ++ ds ++ [')']) = some (parseNatL ds) := by
  have hds_nws : ∀ c ∈ ds, Char.isWhitespace c = false :=
    fun c hc => digit_not_ws c (hdig c hc)
  have e1 : (" (Count: ".data ++ ds ++ [')']).dropWhile Char.isWhitespace =
      "(Count:".data ++ (' ' :: (ds ++ [')'])) := by
    rw [show (" (Count: ".data ++ ds ++ [')']) =
      ' ' :: ("(Count:".data ++ (' ' :: (ds ++ [')']))) by simp]
    rw [List.dropWhile_cons, if_pos (by decide)]
    exact dropWhile_eq_self_append _ _ _ (by decide) (by decide)
  have e2 : ("(Count:".data ++ (' ' :: (ds ++ [')']))).take 7 = "(Count:".data := by
    rw [List.take_append_eq_append_take]
    norm_num
  have e3 : ("(Count:".data ++ (' ' :: (ds ++ [')']))).drop 7 =
      ' ' :: (ds ++ [')']) := by
    rw [List.drop_append_eq_append_drop]
    norm_num
  have e4 : (' ' :: (ds ++ [')'])).dropWhile Char.isWhitespace = ds ++ [')'] := by
    rw [List.dropWhile_cons, if_pos (by decide)]
    exact dropWhile_digits_paren ds hds hds_nws
  have e5 : (ds ++ [')']).takeWhile Char.isDigit = ds :=
    takeWhile_all_append _ ds ')' [] hdig (by decide)
  have e6 : (ds ++ [')']).drop ds.length = [')'] := by
    rw [List.drop_append_eq_append_drop, Nat.sub_self, List.drop_zero,
      List.drop_length, List.nil_append]
  rw [RS.checkCountSuffix]
  simp only [e1, e2, e3, e4, e5, e6, if_true]
  rw [if_pos ⟨hds, rfl⟩]

/-- The count-suffix test fails on any remainder that still begins with
a fragment of the subcategory name: after whitespace stripping the
first character comes from the name, and benign names contain no
`(`. -/
theorem checkCountSuffix_name_frag (m S : List Char)
    (hne : m.dropWhile Char.isWhitespace ≠ [])
    (hnp : ∀ c ∈ m, c ≠ '(') :
    RS.checkCountSuffix (m ++ S) = none := by
  have e1 : (m ++ S).dropWhile Char.isWhitespace =
      m.dropWhile Char.isWhitespace ++ S :=
    dropWhile_append_of_ne_nil _ m S hne
  rcases hm : m.dropWhile Char.isWhitespace with _ | ⟨h, t⟩
  · exact absurd hm hne
  · have hh : h ∈ m := mem_of_mem_dropWhile _ m h (by rw [hm]; simp)
    have hh2 : h ≠ '(' := hnp h hh
    rw [RS.checkCountSuffix]
    simp only [e1, hm]
    rw [List.cons_append]
    rw [if_neg (by
      rw [show (7 : Nat) = 6 + 1 by norm_num, List.take_succ_cons]
      simp [hh2])]

/-- The minimal-group scan recovers exactly the benign name. -/
theorem scanMin_name (ds : List Char) (hds : ds ≠ [])
    (hdig : ∀ c ∈ ds, c.isDigit = true) (z : Char)
    (hzw : z.isWhitespace = false) :
    ∀ (nm acc : List Char), nm ≠ [] → (∀ c ∈ nm, c ≠ '(') →
      nm.getLast? = some z →
      RS.scanMin acc (nm ++ (" (Count: ".data ++ ds ++ [')'])) =
        some (acc ++ nm, parseNatL ds) := by
  intro nm
  induction nm with
  | nil => intro acc h; exact absurd rfl h
  | cons m rest ih =>
    intro acc _ hnp hlast
    rw [List.cons_append, RS.scanMin]
    cases rest with
    | nil =>
      rw [show ([] : List Char) ++ (" (Count: ".data ++ ds ++ [')']) =
        " (Count: ".data ++ ds ++ [')'] by simp]
      rw [checkCountSuffix_hit ds hds hdig]
    | cons r1 rt =>
      have hlast2 : (r1 :: rt).getLast? = some z := by
        rw [← hlast, List.getLast?_cons_cons]
      have hz_mem : z ∈ r1 :: rt := by
        have hin : z ∈ (r1 :: rt).getLast? := by
          rw [hlast2]; rfl
        rcases List.mem_getLast?_eq_getLast hin with ⟨hne2, hz⟩
        rw [hz]
        exact List.getLast_mem hne2
      have hmiss : RS.checkCountSuffix
          ((r1 :: rt) ++ (" (Count: ".data ++ ds ++ [')'])) = none :=
        checkCountSuffix_name_frag (r1 :: rt) _
          (dropWhile_ne_nil_of_mem _ _ z hz_mem (by simp [hzw]))
          (fun c hc => hnp c (List.mem_cons_of_mem _ hc))
      rw [hmiss]
      rw [ih (acc ++ [m]) (by simp)
        (fun c hc => hnp c (List.mem_cons_of_mem _ hc)) hlast2]
      simp

theorem startsWithL_cons_self (c : Char) (t : List Char) :
    startsWithL (c :: t) [c] = true := by
  rw [startsWithL]
  simp [List.take_succ_cons]

/-- The bullet regex on a stripped benign bullet line recovers the name
and the count digits. -/
theorem bulletMatch_hit (nm : String) (ds : List Char)
    (hne : nm.data ≠ []) (htr : trimmedL nm.data) (hnp : '(' ∉ nm.data)
    (hds : ds ≠ []) (hdig : ∀ c ∈ ds, c.isDigit = true) :
    RS.bulletMatch ('•' :: (' ' :: (nm.data ++ (" (Count: ".data ++ ds ++ [')']))))
      = some (nm, parseNatL ds) := by
  have hhead : ∃ n0 nt, nm.data = n0 :: nt ∧ n0.isWhitespace = false := by
    rcases hnd : nm.data with _ | ⟨n0, nt⟩
    · exact absurd hnd hne
    · refine ⟨n0, nt, rfl, ?_⟩
      have h1 := htr.1
      rw [hnd] at h1
      exact head_false_of_dropWhile_self _ n0 nt h1
  rcases hrev : nm.data.reverse with _ | ⟨z, w⟩
  · rcases hhead with ⟨n0, nt, hnd, _⟩
    rw [hnd] at hrev
    simp at hrev
  have hzw : z.isWhitespace = false := by
    have := htr.2
    rw [hrev] at this
    exact head_false_of_dropWhile_self _ z w this
  have hlast : nm.data.getLast? = some z := by
    have : nm.data = w.reverse ++ [z] := by
      rw [← List.reverse_reverse nm.data, hrev]
      simp
    rw [this, List.getLast?_concat]
  rw [RS.bulletMatch, if_pos rfl]
  have hws : RS.wsRun (' ' :: (nm.data ++ (" (Count: ".data ++ ds ++ [')']))) = 1 := by
    rcases hhead with ⟨n0, nt, hnd, hn0⟩
    rw [RS.wsRun, List.takeWhile_cons, if_pos (by decide), hnd,
      List.cons_append, List.takeWhile_cons, if_neg (by simp [hn0])]
    rfl
  rw [hws, RS.goK]
  rw [show (' ' :: (nm.data ++ (" (Count: ".data ++ ds ++ [')']))).drop (0 + 1) =
    nm.data ++ (" (Count: ".data ++ ds ++ [')']) from rfl]
  rw [scanMin_name ds hds hdig z hzw nm.data [] hne
    (fun c hc h => hnp (h ▸ hc)) hlast]
  rw [List.nil_append]
  have hstrip : pyStripL nm.data = nm.data := pyStripL_eq_self htr
  show some (String.mk (pyStripL nm.data), parseNatL ds) = some (nm, parseNatL ds)
  rw [hstrip]

/-! #### Line-classification lemmas -/

theorem natToChars_ws_false (n : Nat) :
    ∀ c ∈ natToChars n, c.isWhitespace = false := by
  intro c hc
  have := natToChars_not_ws n c hc
  revert this
  cases c.isWhitespace <;> simp

theorem isEmpty_append_left (l r : List Char) (h : l ≠ []) :
    (l ++ r).isEmpty = false := by
  cases l with
  | nil => exact absurd rfl h
  | cons c t => rfl

theorem substr_cons_head_ne (p0 : Char) (pt : List Char) (c : Char)
    (t : List Char) (hne : c ≠ p0)
    (htail : substrAux (p0 :: pt) t = false) :
    substrAux (p0 :: pt) (c :: t) = false := by
  rw [substrAux, htail]
  simp only [Bool.or_false]
  rw [List.length_cons, List.take_succ_cons]
  simp [hne]

theorem natToChars_rev_dropWhile (n : Nat) :
    (natToChars n).reverse.dropWhile Char.isWhitespace = (natToChars n).reverse :=
  dropWhile_eq_self_of_all _ _
    (fun c hc => natToChars_ws_false n c (List.mem_reverse.mp hc))

theorem parseLine_title (st : RS.PState) :
    RS.parseLine st "CATEGORIES AND SUBCATEGORIES WITH 0 OR 1 VIDEO COUNTS".data = st := rfl

theorem parseLine_eq60 (st : RS.PState) :
    RS.parseLine st (List.replicate 60 '=') = st := rfl

theorem parseLine_blank (st : RS.PState) : RS.parseLine st [] = st := rfl

theorem parseLine_dashes (st : RS.PState) :
    RS.parseLine st (List.replicate 40 '-') = st := rfl

theorem parseLine_summary (st : RS.PState) :
    RS.parseLine st "SUMMARY".data = st := rfl

theorem parseLine_eq20 (st : RS.PState) :
    RS.parseLine st (List.replicate 20 '=') = st := rfl

/-- A line whose stripped form matches no parser branch (or only the
two metadata skips) leaves the state unchanged. -/
theorem parseLine_skip (st : RS.PState) (raw : List Char)
    (hstrip : pyStripL raw = raw)
    (hii : raw.isEmpty = false)
    (h1 : startsWithL raw ['='] = false)
    (h2 : startsWithL raw ['-'] = false)
    (h3 : startsWithL raw "CATEGORIES".data = false)
    (h4 : startsWithL raw "SUMMARY".data = false)
    (h5 : startsWithL raw "CATEGORY:".data = false)
    (h6 : startsWithL raw "Total subcategories:".data = true ∨
          startsWithL raw "Low count subcategories:".data = true ∨
          (startsWithL raw "Total subcategories:".data = false ∧
           startsWithL raw "Low count subcategories:".data = false ∧
           startsWithL raw ['•'] = false)) :
    RS.parseLine st raw = st := by
  rw [RS.parseLine]
  simp only [hstrip, hii, h1, h2, h3, h4, h5, Bool.or_false, Bool.false_or,
    Bool.or_self, Bool.false_eq_true, if_false]
  rcases h6 with h6 | h6 | ⟨h6a, h6b, h6c⟩
  · rw [h6]
    simp
  · rw [h6]
    simp
  · simp only [h6a, h6b, h6c, Bool.or_self, Bool.false_eq_true, if_false]

theorem parseLine_total_subcats (st : RS.PState) (n : Nat) :
    RS.parseLine st ("Total subcategories: ".data ++ natToChars n) = st := by
  apply parseLine_skip
  · exact pyStripL_append_of (by decide) (by decide)
      (natToChars_rev_dropWhile n) (natToChars_ne_nil n)
  · exact isEmpty_append_left _ _ (by decide)
  · rw [startsWithL_append_left _ _ _ (by decide)]; decide
  · rw [startsWithL_append_left _ _ _ (by decide)]; decide
  · rw [startsWithL_append_left _ _ _ (by decide)]; decide
  · rw [startsWithL_append_left _ _ _ (by decide)]; decide
  · rw [startsWithL_append_left _ _ _ (by decide)]; decide
  · left
    rw [startsWithL_append_left _ _ _ (by decide)]; decide

theorem parseLine_low_subcats (st : RS.PState) (n : Nat) :
    RS.parseLine st ("Low count subcategories: ".data ++ natToChars n) = st := by
  apply parseLine_skip
  · exact pyStripL_append_of (by decide) (by decide)
      (natToChars_rev_dropWhile n) (natToChars_ne_nil n)
  · exact isEmpty_append_left _ _ (by decide)
  · rw [startsWithL_append_left _ _ _ (by decide)]; decide
  · rw [startsWithL_append_left _ _ _ (by decide)]; decide
  · rw [startsWithL_append_left _ _ _ (by decide)]; decide
  · rw [startsWithL_append_left _ _ _ (by decide)]; decide
  · rw [startsWithL_append_left _ _ _ (by decide)]; decide
  · right; left
    rw [startsWithL_append_left _ _ _ (by decide)]; decide

theorem parseLine_total_analyzed (st : RS.PState) (n : Nat) :
    RS.parseLine st ("Total categories analyzed: ".data ++ natToChars n) = st := by
  apply parseLine_skip
  · exact pyStripL_append_of (by decide) (by decide)
      (natToChars_rev_dropWhile n) (natToChars_ne_nil n)
  · exact isEmpty_append_left _ _ (by decide)
  · rw [startsWithL_append_left _ _ _ (by decide)]; decide
  · rw [startsWithL_append_left _ _ _ (by decide)]; decide
  · rw [startsWithL_append_left _ _ _ (by decide)]; decide
  · rw [startsWithL_append_left _ _ _ (by decide)]; decide
  · rw [startsWithL_append_left _ _ _ (by decide)]; decide
  · right; right
    refine ⟨?_, ?_, ?_⟩ <;> (rw [startsWithL_append_left _ _ _ (by decide)]; decide)

theorem parseLine_cats_with_low (st : RS.PState) (n : Nat) :
    RS.parseLine st
      ("Categories with low count subcategories: ".data ++ natToChars n) = st := by
  apply parseLine_skip
  · exact pyStripL_append_of (by decide) (by decide)
      (natToChars_rev_dropWhile n) (natToChars_ne_nil n)
  · exact isEmpty_append_left _ _ (by decide)
  · rw [startsWithL_append_left _ _ _ (by decide)]; decide
  · rw [startsWithL_append_left _ _ _ (by decide)]; decide
  · rw [startsWithL_append_left _ _ _ (by decide)]; decide
  · rw [startsWithL_append_left _ _ _ (by decide)]; decide
  · rw [startsWithL_append_left _ _ _ (by decide)]; decide
  · right; right
    refine ⟨?_, ?_, ?_⟩ <;> (rw [startsWithL_append_left _ _ _ (by decide)]; decide)

theorem parseLine_total_with_videos (st : RS.PState) (n : Nat) :
    RS.parseLine st
      ("Total subcategories with 0 or 1 videos: ".data ++ natToChars n) = st := by
  apply parseLine_skip
  · exact pyStripL_append_of (by decide) (by decide)
      (natToChars_rev_dropWhile n) (natToChars_ne_nil n)
  · exact isEmpty_append_left _ _ (by decide)
  · rw [startsWithL_append_left _ _ _ (by decide)]; decide
  · rw [startsWithL_append_left _ _ _ (by decide)]; decide
  · rw [startsWithL_append_left _ _ _ (by decide)]; decide
  · rw [startsWithL_append_left _ _ _ (by decide)]; decide
  · rw [startsWithL_append_left _ _ _ (by decide)]; decide
  · right; right
    refine ⟨?_, ?_, ?_⟩ <;> (rw [startsWithL_append_left _ _ _ (by decide)]; decide)

/-- A `CATEGORY: c` line inserts `c` and makes it current, provided `c`
is trimmed, nonempty and does not itself contain `CATEGORY:`. -/
theorem parseLine_category (st : RS.PState) (c : String)
    (hcne : c.data ≠ []) (htr : trimmedL c.data)
    (hnosub : hasSubstr c "CATEGORY:" = false) :
    RS.parseLine st ("CATEGORY: ".data ++ c.data) =
      { dict := RS.pInsert st.dict c, current := some c } := by
  have hnosub' : substrAux "CATEGORY:".data c.data = false := hnosub
  have hstrip : pyStripL ("CATEGORY: ".data ++ c.data) =
      "CATEGORY: ".data ++ c.data :=
    pyStripL_append_of (by decide) (by decide) htr.2 hcne
  have hsub : substrAux "CATEGORY:".data (' ' :: c.data) = false := by
    rw [show "CATEGORY:".data = 'C' :: "ATEGORY:".data from rfl]
    exact substr_cons_head_ne _ _ _ _ (by decide) hnosub'
  have hremove : RS.removeAll "CATEGORY:".data ("CATEGORY: ".data ++ c.data) =
      ' ' :: c.data := by
    rw [show "CATEGORY: ".data ++ c.data = "CATEGORY:".data ++ (' ' :: c.data)
      from rfl]
    exact removeAll_pat_prefix _ _ (by decide) hsub
  have hsp : pyStripL (' ' :: c.data) = c.data := by
    rw [pyStripL, List.dropWhile_cons, if_pos (by decide), htr.1, htr.2,
      List.reverse_reverse]
  have hii : ("CATEGORY: ".data ++ c.data).isEmpty = false :=
    isEmpty_append_left _ _ (by decide)
  have h1 : startsWithL ("CATEGORY: ".data ++ c.data) ['='] = false := by
    rw [startsWithL_append_left _ _ _ (by decide)]; decide
  have h2 : startsWithL ("CATEGORY: ".data ++ c.data) ['-'] = false := by
    rw [startsWithL_append_left _ _ _ (by decide)]; decide
  have h3 : startsWithL ("CATEGORY: ".data ++ c.data) "CATEGORIES".data = false := by
    rw [startsWithL_append_left _ _ _ (by decide)]; decide
  have h4 : startsWithL ("CATEGORY: ".data ++ c.data) "SUMMARY".data = false := by
    rw [startsWithL_append_left _ _ _ (by decide)]; decide
  have h5 : startsWithL ("CATEGORY: ".data ++ c.data) "CATEGORY:".data = true := by
    rw [startsWithL_append_left _ _ _ (by decide)]; decide
  rw [RS.parseLine]
  simp only [hstrip, hii, h1, h2, h3, h4, h5, Bool.or_false, Bool.false_or,
    Bool.or_self, Bool.false_eq_true, if_false, if_true]
  rw [hremove, hsp]

/-- A benign bullet line appends `(nm, count)` under the current
category and leaves `current` unchanged. -/
theorem parseLine_bullet (dict : List (String × List (String × Nat)))
    (cur : String) (nm : String) (v : Int)
    (hne : nm.data ≠ []) (htr : trimmedL nm.data) (hnp : '(' ∉ nm.data)
    (hv : 0 ≤ v) :
    RS.parseLine { dict := dict, current := some cur } (LV.bulletLine (nm, v)) =
      { dict := RS.pAppend dict cur (nm, v.toNat), current := some cur } := by
  have hint : intToChars v = natToChars v.toNat := by
    rw [intToChars, if_neg (not_lt.mpr hv)]
  have hds_ne : natToChars v.toNat ≠ [] := natToChars_ne_nil _
  have hdig : ∀ ch ∈ natToChars v.toNat, ch.isDigit = true :=
    fun ch hch => natToChars_digit _ ch hch
  have hbl : LV.bulletLine (nm, v) =
      ' ' :: ' ' :: ('•' :: (' ' :: (nm.data ++
        (" (Count: ".data ++ natToChars v.toNat ++ [')'])))) := by
    rw [LV.bulletLine, hint]
    simp [List.append_assoc]
  have hA : ('•' :: (' ' :: (nm.data ++
        (" (Count: ".data ++ natToChars v.toNat ++ [')'])))) =
      ('•' :: (' ' :: (nm.data ++ (" (Count: ".data ++ natToChars v.toNat))))
        ++ [')'] := by
    simp [List.append_assoc]
  have hrev : ('•' :: (' ' :: (nm.data ++
        (" (Count: ".data ++ natToChars v.toNat ++ [')'])))).reverse =
      ')' :: ('•' :: (' ' :: (nm.data ++
        (" (Count: ".data ++ natToChars v.toNat)))).reverse := by
    rw [hA, List.reverse_append]
    rfl
  have hstripA : pyStripL (' ' :: ' ' :: ('•' :: (' ' :: (nm.data ++
      (" (Count: ".data ++ natToChars v.toNat ++ [')']))))) =
      '•' :: (' ' :: (nm.data ++
        (" (Count: ".data ++ natToChars v.toNat ++ [')']))) := by
    rw [pyStripL, List.dropWhile_cons, if_pos (by decide),
      List.dropWhile_cons, if_pos (by decide),
      List.dropWhile_cons, if_neg (by decide), hrev,
      List.dropWhile_cons, if_neg (by decide), ← hrev, List.reverse_reverse]
  have hii : ('•' :: (' ' :: (nm.data ++
      (" (Count: ".data ++ natToChars v.toNat ++ [')'])))).isEmpty = false := rfl
  have h1 : startsWithL ('•' :: (' ' :: (nm.data ++
      (" (Count: ".data ++ natToChars v.toNat ++ [')'])))) ['='] = false :=
    startsWithL_cons_ne _ _ _ _ (by decide)
  have h2 : startsWithL ('•' :: (' ' :: (nm.data ++
      (" (Count: ".data ++ natToChars v.toNat ++ [')'])))) ['-'] = false :=
    startsWithL_cons_ne _ _ _ _ (by decide)
  have h3 : startsWithL ('•' :: (' ' :: (nm.data ++
      (" (Count: ".data ++ natToChars v.toNat ++ [')'])))) "CATEGORIES".data
      = false := by
    rw [show "CATEGORIES".data = 'C' :: "ATEGORIES".data from rfl]
    exact startsWithL_cons_ne _ _ _ _ (by decide)
  have h4 : startsWithL ('•' :: (' ' :: (nm.data ++
      (" (Count: ".data ++ natToChars v.toNat ++ [')'])))) "SUMMARY".data
      = false := by
    rw [show "SUMMARY".data = 'S' :: "UMMARY".data from rfl]
    exact startsWithL_cons_ne _ _ _ _ (by decide)
  have h5 : startsWithL ('•' :: (' ' :: (nm.data ++
      (" (Count: ".data ++ natToChars v.toNat ++ [')'])))) "CATEGORY:".data
      = false := by
    rw [show "CATEGORY:".data = 'C' :: "ATEGORY:".data from rfl]
    exact startsWithL_cons_ne _ _ _ _ (by decide)
  have h6 : startsWithL ('•' :: (' ' :: (nm.data ++
      (" (Count: ".data ++ natToChars v.toNat ++ [')']))))
      "Total subcategories:".data = false := by
    rw [show "Total subcategories:".data = 'T' :: "otal subcategories:".data
      from rfl]
    exact startsWithL_cons_ne _ _ _ _ (by decide)
  have h7 : startsWithL ('•' :: (' ' :: (nm.data ++
      (" (Count: ".data ++ natToChars v.toNat ++ [')']))))
      "Low count subcategories:".data = false := by
    rw [show "Low count subcategories:".data =
      'L' :: "ow count subcategories:".data from rfl]
    exact startsWithL_cons_ne _ _ _ _ (by decide)
  have h8 : startsWithL ('•' :: (' ' :: (nm.data ++
      (" (Count: ".data ++ natToChars v.toNat ++ [')'])))) ['•'] = true :=
    startsWithL_cons_self _ _
  have hbm := bulletMatch_hit nm (natToChars v.toNat) hne htr hnp hds_ne hdig
  have hpn : parseNatL (natToChars v.toNat) = v.toNat := parseNatL_natToChars _
  rw [hbl, RS.parseLine]
  simp only [hstripA, hii, h1, h2, h3, h4, h5, h6, h7, h8, Bool.or_false,
    Bool.false_or, Bool.or_self, Bool.false_eq_true, if_false, if_true]
  rw [hbm, hpn]

/-! #### Folding the parser over a report -/

theorem foldl_bullets (m : List (String × List (String × Nat)))
    (cname : String) (hfresh : ∀ p ∈ m, p.1 ≠ cname) :
    ∀ (subs : List (String × Int)) (l : List (String × Nat)),
      (∀ s ∈ subs, benignSub s) →
      List.foldl RS.parseLine
        { dict := m ++ [(cname, l)], current := some cname }
        (subs.map LV.bulletLine) =
      { dict := m ++ [(cname, l ++ subs.map (fun s => (s.1, s.2.toNat)))],
        current := some cname } := by
  intro subs
  induction subs with
  | nil => intro l _; simp
  | cons s ss ih =>
    intro l hben
    obtain ⟨nm, v⟩ := s
    have hb := hben (nm, v) (List.mem_cons_self _ _)
    rw [List.map_cons, List.foldl_cons,
      parseLine_bullet (m ++ [(cname, l)]) cname nm v hb.1 hb.2.1 hb.2.2.1
        hb.2.2.2.2,
      pAppend_fresh m cname l (nm, v.toNat) hfresh,
      ih (l ++ [(nm, v.toNat)]) (fun t ht => hben t (List.mem_cons_of_mem _ ht))]
    simp

theorem foldl_block (c : String × LV.CatData)
    (m : List (String × List (String × Nat))) (cur0 : Option String)
    (hfresh : ∀ p ∈ m, p.1 ≠ c.1) (hben : benignCat c) :
    List.foldl RS.parseLine { dict := m, current := cur0 } (LV.catLines c) =
      { dict := m ++ [(c.1, c.2.low_count_subcategories.map
          (fun s => (s.1, s.2.toNat)))], current := some c.1 } := by
  obtain ⟨cname, cd⟩ := c
  rw [LV.catLines, List.foldl_cons,
    parseLine_category _ _ hben.1 hben.2.1 hben.2.2.2.1,
    pInsert_fresh m cname hfresh,
    List.foldl_cons, parseLine_total_subcats,
    List.foldl_cons, parseLine_low_subcats,
    List.foldl_cons, parseLine_dashes,
    List.foldl_append,
    foldl_bullets m cname hfresh cd.low_count_subcategories []
      hben.2.2.2.2.2,
    List.foldl_cons, parseLine_blank, List.foldl_nil]
  simp

theorem foldl_blocks :
    ∀ (results : List (String × LV.CatData))
      (m : List (String × List (String × Nat))) (cur0 : Option String),
      (∀ c ∈ results, benignCat c) →
      (results.map Prod.fst).Nodup →
      (∀ p ∈ m, ∀ c ∈ results, p.1 ≠ c.1) →
      ∃ cur', List.foldl RS.parseLine { dict := m, current := cur0 }
          (results.flatMap LV.catLines) =
        { dict := m ++ results.map (fun c => (c.1,
            c.2.low_count_subcategories.map (fun s => (s.1, s.2.toNat)))),
          current := cur' } := by
  intro results
  induction results with
  | nil => intro m cur0 _ _ _; exact ⟨cur0, by simp⟩
  | cons c cs ih =>
    intro m cur0 hben hnd hdisj
    have hnd' : (c.1 :: cs.map Prod.fst).Nodup := by
      rw [List.map_cons] at hnd
      exact hnd
    have hndc := List.nodup_cons.mp hnd'
    rw [List.flatMap_cons, List.foldl_append,
      foldl_block c m cur0 (fun p hp => hdisj p hp c (List.mem_cons_self _ _))
        (hben c (List.mem_cons_self _ _))]
    have hdisj' : ∀ p ∈ m ++ [(c.1, c.2.low_count_subcategories.map
        (fun s => (s.1, s.2.toNat)))], ∀ c' ∈ cs, p.1 ≠ c'.1 := by
      intro p hp c' hc'
      rcases List.mem_append.mp hp with hp | hp
      · exact hdisj p hp c' (List.mem_cons_of_mem _ hc')
      · have hp1 : p.1 = c.1 := by
          simp only [List.mem_singleton] at hp
          rw [hp]
        rw [hp1]
        intro hcc
        exact hndc.1 (hcc ▸ List.mem_map_of_mem Prod.fst hc')
    obtain ⟨cur', heq⟩ := ih (m ++ [(c.1, c.2.low_count_subcategories.map
        (fun s => (s.1, s.2.toNat)))]) (some c.1)
      (fun t ht => hben t (List.mem_cons_of_mem _ ht)) hndc.2 hdisj'
    exact ⟨cur', by rw [heq]; simp⟩

theorem no_nl_append (a b : List Char) (ha : '\n' ∉ a) (hb : '\n' ∉ b) :
    '\n' ∉ a ++ b := by
  intro h
  rcases List.mem_append.mp h with h | h
  · exact ha h
  · exact hb h

theorem intToChars_no_nl (v : Int) : '\n' ∉ intToChars v := by
  rw [intToChars]
  split
  · intro h
    rcases List.mem_cons.mp h with h | h
    · exact absurd h (by decide)
    · exact natToChars_no_nl _ h
  · exact natToChars_no_nl _

theorem writerLines_no_nl (results : List (String × LV.CatData))
    (hben : ∀ c ∈ results, benignCat c) :
    ∀ l ∈ LV.writerLines results, '\n' ∉ l := by
  intro l hl
  rw [LV.writerLines] at hl
  simp only [List.mem_cons, List.mem_append, List.mem_flatMap,
    List.not_mem_nil, or_false] at hl
  rcases hl with h | h | h | ⟨c, hc, hcl⟩ | h | h | h | h | h
  · rw [h]; decide
  · rw [h]; decide
  · rw [h]; decide
  · have hbc := hben c hc
    rw [LV.catLines] at hcl
    simp only [List.mem_cons, List.mem_append, List.mem_map,
      List.not_mem_nil, or_false] at hcl
    rcases hcl with h | h | h | h | ⟨s, hs, hsl⟩ | h
    · rw [h]
      exact no_nl_append _ _ (by decide) hbc.2.2.1
    · rw [h]
      exact no_nl_append _ _ (by decide) (natToChars_no_nl _)
    · rw [h]
      exact no_nl_append _ _ (by decide) (natToChars_no_nl _)
    · rw [h]; decide
    · have hbs := hbc.2.2.2.2.2 s hs
      rw [← hsl, LV.bulletLine]
      exact no_nl_append _ _ (no_nl_append _ _ (no_nl_append _ _
        (no_nl_append _ _ (by decide) hbs.2.2.2.1) (by decide))
        (intToChars_no_nl _)) (by decide)
    · rw [h]; decide
  · rw [h]; decide
  · rw [h]; decide
  · rw [h]
    exact no_nl_append _ _ (by decide) (natToChars_no_nl _)
  · rw [h]
    exact no_nl_append _ _ (by decide) (natToChars_no_nl _)
  · rw [h]
    exact no_nl_append _ _ (by decide) (natToChars_no_nl _)

/-- C8 (amended): `save_results_to_file` followed by
`parse_low_video_count_file` is a faithful round trip whenever the
category names are pairwise distinct and every entry is benign
(`benignCat`: stripped nonempty newline-free names, no `(` in
subcategory names, no `CATEGORY:` inside category names, nonnegative
counts, nonempty low-count lists): the parser recovers exactly the
category names, each with its subcategory name/count pairs in order,
and nothing else.  Without the benign hypotheses the round trip fails
(see the counterexample: a subcategory name containing `(Count: ...)`
is truncated by the lazy regex group). -/
theorem claim_C8_roundtrip_amended (results : List (String × LV.CatData))
    (hnd : (results.map Prod.fst).Nodup)
    (hben : ∀ c ∈ results, benignCat c) :
    RS.parse_low_video_count_file (LV.save_results_to_file results) =
      results.map (fun c => (c.1, c.2.low_count_subcategories.map
        (fun s => (s.1, s.2.toNat)))) := by
  rw [RS.parse_low_video_count_file, LV.save_results_to_file,
    splitChar_joinLines _ (writerLines_no_nl results hben), LV.writerLines]
  rw [List.foldl_append, List.foldl_cons, List.foldl_nil, parseLine_blank]
  rw [List.foldl_cons, parseLine_title, List.foldl_cons, parseLine_eq60,
    List.foldl_cons, parseLine_blank, List.foldl_append]
  obtain ⟨cur', heq⟩ := foldl_blocks results [] none hben hnd
    (fun p hp => absurd hp (List.not_mem_nil p))
  rw [heq, List.nil_append]
  rw [List.foldl_cons, parseLine_summary, List.foldl_cons, parseLine_eq20,
    List.foldl_cons, parseLine_total_analyzed, List.foldl_cons,
    parseLine_cats_with_low, List.foldl_cons, parseLine_total_with_videos,
    List.foldl_nil]
  rw [List.filter_eq_self.mpr]
  intro p hp
  rcases List.mem_map.mp hp with ⟨c, hc, rfl⟩
  have hsne := (hben c hc).2.2.2.2.1
  simp [hsne]

/-- Witness for C8 (amended) at a concrete benign two-category report. -/
theorem claim_C8_roundtrip_amended_witness :
    RS.parse_low_video_count_file (LV.save_results_to_file
      [("Camera", ⟨5, [("Motion Blur", 0), ("Zoom", 1)], 2⟩),
       ("Effects", ⟨3, [("Solo", 0)], 1⟩)]) =
      [("Camera", [("Motion Blur", 0), ("Zoom", 1)]),
       ("Effects", [("Solo", 0)])] :=
  claim_C8_roundtrip_amended
    [("Camera", ⟨5, [("Motion Blur", 0), ("Zoom", 1)], 2⟩),
     ("Effects", ⟨3, [("Solo", 0)], 1⟩)]
    (by decide) (by decide)

end HF
